import Mathlib

/-!
Verification development for the pdf-benchmarking repository.

The repository is a client-side benchmarking harness: a UI triggers one of
four PDF backends, each hosted in a Web Worker.  The orchestrator services
(`pdfMeService.ts`, `pdfLibService.ts`, ...) send a `{ rowCount }` request
message to a worker, receive one `{ success, data, error, metrics }` response
and settle a promise.  The PDFme service additionally keeps a worker pool
(max size 2) and a result cache keyed by row count.  The workers generate
deterministic dummy data and build a paginated tabular PDF.

This file shallowly embeds the deterministic parts of that code:
  * the synthetic data generator (identical in all four workers);
  * the cached data-generator variant of `pdfMeWorker.ts`;
  * the worker pool (`getWorker` / `releaseWorker` of `pdfMeService.ts`);
  * the orchestration of `generatePdfWithPdfMe` (cache / pool / settle),
    with the boundary response and the wall-clock stamps supplied as
    explicit parameters, and with observation counters (requests sent,
    acquires, releases) recorded in the state;
  * the event handling of `generatePdfWithPdfLib` (no-pool policy), as a
    fold over the stream of boundary events, the promise being modelled as
    a one-shot cell (first settlement wins) together with an attempt
    counter;
  * the worker-side message handler of `pdfLibWorker.ts` (exactly one
    posted response per request);
  * the timing-metric computations, over `ℚ` time stamps of a single
    global monotonic clock;
  * the pagination of `pdfMeWorker.ts` (`createTemplate` /
    `generateInputs`), 30 rows per page;
  * the drawing / pagination loop of `pdfLibWorker.ts`'s `createPdf`
    (25 rows under the first page's title block, 28 per later page, a
    header drawn on every page), with a page modelled as its list of
    draw commands.

Times are rationals (JS floats), machine numbers that matter (row counts,
indices) are `Nat`, JS `Map`s are association lists, JS arrays are lists
whose head models the array's end where the array is used as a LIFO stack.
-/

set_option autoImplicit false

namespace PdfBench

/-! ### Helpers: JS `Map` as an association list, in-place array update -/

/-- `map.get(k)` on a JS `Map` modelled as an association list. -/
def mapGet {α : Type} (m : List (Nat × α)) (k : Nat) : Option α :=
  (m.find? (fun p => p.1 == k)).map (fun p => p.2)

/-- `map.set(k, v)` on a JS `Map` modelled as an association list:
replaces the entry for `k` if present, otherwise appends it. -/
def mapSet {α : Type} (m : List (Nat × α)) (k : Nat) (v : α) : List (Nat × α) :=
  match m with
  | [] => [(k, v)]
  | p :: rest => if p.1 == k then (k, v) :: rest else p :: mapSet rest k v

/-- `arr[i] = f(arr[i])` — mutation of one slot of a JS array
(no-op when the index is out of range, as with the folds below it never is). -/
def modifyAt {α : Type} : List α → Nat → (α → α) → List α
  | [], _, _ => []
  | a :: l, 0, f => f a :: l
  | a :: l, n + 1, f => a :: modifyAt l n f

/-! ### Synthetic data generator

All four workers define the same `generateDummyData`; `pdfMeWorker.ts`
additionally memoizes it (`dataCache`), modelled in `DataCache` below. -/

/-- One row of dummy data (`RowData` in the workers). -/
structure RowData where
  name : String
  age : Nat
  email : String
  occupation : String
deriving DecidableEq

/-- `const OCCUPATIONS = ['Engineer', 'Designer', 'Manager', 'Developer', 'Analyst']`. -/
def OCCUPATIONS : List String :=
  ["Engineer", "Designer", "Manager", "Developer", "Analyst"]

/-- `generateDummyData(rowCount)`: the loop `for (i = 0; i < rowCount; i++)`
filling slot `i` with `Person ${i+1}`, age `20 + (i % 40)`,
`person${i+1}@example.com` and `OCCUPATIONS[i % 5]`. -/
def generateDummyData (rowCount : Nat) : List RowData :=
  (List.range rowCount).map (fun i =>
    { name := "Person " ++ toString (i + 1)
      age := 20 + i % 40
      email := "person" ++ toString (i + 1) ++ "@example.com"
      occupation := OCCUPATIONS.getD (i % 5) "" })

namespace DataCache

/-- The caching `generateDummyData` of `pdfMeWorker.ts`: consult `dataCache`
first, else run the generation loop (its body uses
`OCCUPATIONS[i % OCCUPATIONS.length]`) and store the result.  The mutable
module-level `dataCache` is passed and returned explicitly. -/
def generateDummyDataCached (dataCache : List (Nat × List RowData)) (rowCount : Nat) :
    List RowData × List (Nat × List RowData) :=
  match mapGet dataCache rowCount with
  | some cached => (cached, dataCache)
  | none =>
    let dummyData := (List.range rowCount).map (fun i =>
      { name := "Person " ++ toString (i + 1)
        age := 20 + i % 40
        email := "person" ++ toString (i + 1) ++ "@example.com"
        occupation := OCCUPATIONS.getD (i % OCCUPATIONS.length) "" : RowData })
    (dummyData, mapSet dataCache rowCount dummyData)

end DataCache

/-! ### Worker pool of `pdfMeService.ts`

Workers are identified by spawn order (`nextId`).  The JS array
`workerPool` is used only through `push`/`pop`, i.e. as a stack; the list
head models the array's end (its top).  Terminated workers are recorded so
that "destroy instead of retain" is observable. -/

namespace Pool

/-- `const MAX_POOL_SIZE = 2`. -/
def MAX_POOL_SIZE : Nat := 2

/-- The mutable module state of the pool: idle workers (top first), the id
for the next spawned worker, and the ids terminated so far. -/
structure PoolState where
  pool : List Nat
  nextId : Nat
  terminated : List Nat
deriving DecidableEq

/-- `getWorker()`: pop the pool if non-empty, else spawn a new worker. -/
def getWorker (s : PoolState) : Nat × PoolState :=
  match s.pool with
  | w :: rest => (w, { s with pool := rest })
  | [] => (s.nextId, { s with nextId := s.nextId + 1 })

/-- `releaseWorker(worker)`: push back while below `MAX_POOL_SIZE`,
else `worker.terminate()`. -/
def releaseWorker (s : PoolState) (w : Nat) : PoolState :=
  if s.pool.length < MAX_POOL_SIZE then { s with pool := w :: s.pool }
  else { s with terminated := w :: s.terminated }

/-- An interaction with the pool. -/
inductive PoolOp where
  | acquire
  | release (w : Nat)

/-- Apply one pool interaction (the acquired worker id is dropped). -/
def applyPoolOp (s : PoolState) : PoolOp → PoolState
  | PoolOp.acquire => (getWorker s).2
  | PoolOp.release w => releaseWorker s w

/-- Apply a sequence of pool interactions. -/
def applyPoolOps (s : PoolState) (ops : List PoolOp) : PoolState :=
  ops.foldl applyPoolOp s

end Pool

/-! ### Cross-boundary protocol and metrics -/

/-- The worker-reported metrics `{ dataGenerationTime, totalTime }`. -/
structure WireMetrics where
  dataGenerationTime : ℚ
  totalTime : ℚ
deriving DecidableEq

/-- The merged `PdfGenerationMetrics` of the services (optional fields are
absent until the orchestrator stamps them). -/
structure PdfGenerationMetrics where
  dataGenerationTime : ℚ
  totalTime : ℚ
  workerStartTime : Option ℚ
  workerEndTime : Option ℚ
  totalProcessTime : Option ℚ
deriving DecidableEq

/-- `PdfGenerationResult`: base64 payload plus metrics. -/
structure PdfGenerationResult where
  pdfData : String
  metrics : PdfGenerationMetrics
deriving DecidableEq

/-- The response message a worker posts:
`{ success: true, data, metrics }` or `{ success: false, error }`
(the error field may be absent, JS `undefined`). -/
inductive WorkerMsg where
  | ok (data : String) (metrics : WireMetrics)
  | fail (error : Option String)
deriving DecidableEq

/-- What the boundary can deliver to the service: a response message
(`onmessage`) or a boundary-level error event (`onerror`). -/
inductive BoundaryEvent where
  | message (msg : WorkerMsg)
  | errorEvent (message : String)
deriving DecidableEq

/-- JS `error || fallback` on an optional error string: an absent or empty
(falsy) message yields the fallback. -/
def orElseStr (e : Option String) (fallback : String) : String :=
  match e with
  | some s => if s = "" then fallback else s
  | none => fallback

/-- How a `run` promise was settled. -/
inductive RunOutcome where
  | resolved (r : PdfGenerationResult)
  | rejected (message : String)
deriving DecidableEq

/-! ### The pooled PDFme service (`generatePdfWithPdfMe`)

One invocation is modelled as a function of the service state, the row
count, and an environment fixing what the boundary does for this request:
the single event that answers it and the two orchestrator-side
`performance.now()` stamps.  Counters record every boundary request sent
and every pool acquire/release, so "no fresh round trip" and "pool not
touched" are equalities on the state. -/

namespace PdfMe

/-- Ambient behaviour of one request: the event answering it, and the
orchestrator-side clock readings `workerStartTime` (taken before acquiring
the worker) and `workerEndTime` (taken when the event arrives). -/
structure RunEnv where
  response : BoundaryEvent
  workerStartTime : ℚ
  workerEndTime : ℚ
deriving DecidableEq

/-- Module state of `pdfMeService.ts` (pool + `pdfCache`), extended with
observation counters for boundary messages and pool traffic. -/
structure PdfMeState where
  pool : Pool.PoolState
  pdfCache : List (Nat × PdfGenerationResult)
  requestsSent : Nat
  acquires : Nat
  releases : Nat
deriving DecidableEq

/-- `generatePdfWithPdfMe(rowCount)`: on a cache hit return the cached
result as an already-resolved promise (no pool access, no message);
otherwise acquire a worker, post `{ rowCount }`, and on the answering
event release the worker and settle — caching the merged result on
success. -/
def generatePdfWithPdfMe (env : RunEnv) (s : PdfMeState) (rowCount : Nat) :
    RunOutcome × PdfMeState :=
  match mapGet s.pdfCache rowCount with
  | some cached => (RunOutcome.resolved cached, s)
  | none =>
    let acquired := Pool.getWorker s.pool
    let worker := acquired.1
    let s1 : PdfMeState :=
      { s with pool := acquired.2
               acquires := s.acquires + 1
               requestsSent := s.requestsSent + 1 }
    match env.response with
    | BoundaryEvent.message (WorkerMsg.ok data m) =>
      let s2 : PdfMeState :=
        { s1 with pool := Pool.releaseWorker s1.pool worker
                  releases := s1.releases + 1 }
      let totalProcessTime := env.workerEndTime - env.workerStartTime
      let result : PdfGenerationResult :=
        { pdfData := data
          metrics :=
            { dataGenerationTime := m.dataGenerationTime
              totalTime := m.totalTime
              workerStartTime := some env.workerStartTime
              workerEndTime := some env.workerEndTime
              totalProcessTime := some totalProcessTime } }
      (RunOutcome.resolved result,
       { s2 with pdfCache := mapSet s2.pdfCache rowCount result })
    | BoundaryEvent.message (WorkerMsg.fail err) =>
      (RunOutcome.rejected (orElseStr err "PDF generation with PDFme failed"),
       { s1 with pool := Pool.releaseWorker s1.pool worker
                 releases := s1.releases + 1 })
    | BoundaryEvent.errorEvent msg =>
      (RunOutcome.rejected ("PDFme worker error: " ++ msg),
       { s1 with pool := Pool.releaseWorker s1.pool worker
                 releases := s1.releases + 1 })

/-- A sequence of further invocations (arbitrary row counts and boundary
behaviours), threaded through the service state. -/
def runSeq (runs : List (RunEnv × Nat)) (s : PdfMeState) : PdfMeState :=
  runs.foldl (fun st p => (generatePdfWithPdfMe p.1 st p.2).2) s

end PdfMe

/-! ### The no-pool PDF-lib service (`generatePdfWithPdfLib`)

An invocation creates a fresh worker, posts one request, and installs
`onmessage`/`onerror` handlers that terminate the worker and settle the
promise.  The invocation's lifetime is modelled as a fold of the handler
over the stream of boundary events delivered for the worker (a terminated
worker delivers nothing).  The promise is a one-shot cell: the first
settlement wins; `settleAttempts` counts attempted settlements. -/

namespace PdfLib

/-- State of one `generatePdfWithPdfLib` invocation. -/
structure RunState where
  workerStartTime : ℚ
  workerAlive : Bool
  settled : Option RunOutcome
  settleAttempts : Nat
  requestsSent : Nat
deriving DecidableEq

/-- Entry of `generatePdfWithPdfLib`: stamp `workerStartTime`, create the
worker, install the handlers and post the single `{ rowCount }` request. -/
def generatePdfWithPdfLib (t0 : ℚ) : RunState :=
  { workerStartTime := t0
    workerAlive := true
    settled := none
    settleAttempts := 0
    requestsSent := 1 }

/-- How the handlers settle the promise for an event arriving at clock
time `t1`, given the invocation's `workerStartTime` `t0`: on success merge
the worker metrics with the orchestrator stamps and
`totalProcessTime = workerEndTime - workerStartTime`; on
`{ success: false }` reject with `error || 'PDF generation failed'`; on a
boundary error event reject with `Worker error: ${message}`. -/
def eventOutcome (t0 t1 : ℚ) : BoundaryEvent → RunOutcome
  | BoundaryEvent.message (WorkerMsg.ok data m) =>
    RunOutcome.resolved
      { pdfData := data
        metrics :=
          { dataGenerationTime := m.dataGenerationTime
            totalTime := m.totalTime
            workerStartTime := some t0
            workerEndTime := some t1
            totalProcessTime := some (t1 - t0) } }
  | BoundaryEvent.message (WorkerMsg.fail err) =>
    RunOutcome.rejected (orElseStr err "PDF generation failed")
  | BoundaryEvent.errorEvent msg =>
    RunOutcome.rejected ("Worker error: " ++ msg)

/-- Deliver one boundary event at clock time `t1`: a live worker is
terminated and the promise-settling function is invoked (first settlement
wins); a terminated worker delivers nothing. -/
def handleEvent (st : RunState) (t1 : ℚ) (e : BoundaryEvent) : RunState :=
  if st.workerAlive then
    { st with
      workerAlive := false
      settled :=
        match st.settled with
        | some o => some o
        | none => some (eventOutcome st.workerStartTime t1 e)
      settleAttempts := st.settleAttempts + 1 }
  else st

/-- Deliver a stream of timed boundary events. -/
def processEvents (st : RunState) (evs : List (ℚ × BoundaryEvent)) : RunState :=
  evs.foldl (fun st p => handleEvent st p.1 p.2) st

end PdfLib

/-! ### Worker side of the PDF-lib backend (`pdfLibWorker.ts`) -/

namespace PdfLibWorker

/-- A JS thrown value: an `Error` object or anything else. -/
inductive Thrown where
  | jsError (message : String)
  | nonErrorValue
deriving DecidableEq

/-- `error instanceof Error ? error.message : 'Unknown error'`. -/
def thrownMessage : Thrown → String
  | Thrown.jsError m => m
  | Thrown.nonErrorValue => "Unknown error"

/-- The worker's `message` listener body: run `createPdf` (its outcome —
payload and metrics, or a thrown value — is supplied, the PDF build being
an external call) and post exactly the resulting messages.  The returned
list is the sequence of `postMessage` calls the handler performs. -/
def onMessage (outcome : Except Thrown (String × WireMetrics)) : List WorkerMsg :=
  match outcome with
  | Except.ok r => [WorkerMsg.ok r.1 r.2]
  | Except.error e => [WorkerMsg.fail (some (thrownMessage e))]

/-- The metric computation of the worker's `createPdf`: with `startTime`,
the clock after `generateDummyData`, and the clock after `pdfDoc.save()`,
report `dataGenerationTime = afterData - startTime` and
`totalTime = afterSave - startTime`. -/
def createPdfMetrics (startTime afterData afterSave : ℚ) : WireMetrics :=
  { dataGenerationTime := afterData - startTime
    totalTime := afterSave - startTime }

/-! #### The drawing / pagination part of `createPdf`

`createPdf` draws the table directly: an A4 page `[595.28, 841.89]`, a
title block and a header on the first page, then a row loop that starts a
new page — drawing a fresh header on it — whenever the current page is
full (`maxRowsOnFirstPage` rows fit under the first page's title block,
`rowsPerPage` on later pages).  A page is modelled as the list of draw
commands issued on it. -/

/-- `page.getWidth()` — the A4 width `595.28`. -/
def pageWidth : ℚ := 595.28

/-- `page.getHeight()` — the A4 height `841.89`. -/
def pageHeight : ℚ := 841.89

/-- `const margin = 50`. -/
def margin : ℚ := 50

/-- `const headerHeight = 30`. -/
def headerHeight : ℚ := 30

/-- `const rowHeight = 25`. -/
def rowHeight : ℚ := 25

/-- `const colWidths = [...]` — the four column widths. -/
def colWidths : List ℚ :=
  [(pageWidth - margin * 2) * 0.25,
   (pageWidth - margin * 2) * 0.1,
   (pageWidth - margin * 2) * 0.4,
   (pageWidth - margin * 2) * 0.25]

/-- `const headerLabels = ['Name', 'Age', 'Email', 'Occupation']`. -/
def headerLabels : List String := ["Name", "Age", "Email", "Occupation"]

/-- `const tableTop = pageHeight - margin - 80`. -/
def tableTop : ℚ := pageHeight - margin - 80

/-- One draw command issued on a page: `drawRectangle` (position, size,
rgb colour) or `drawText` (content, position, font size, bold flag for
the `boldFont`). -/
inductive DrawItem where
  | rectangle (x y width height : ℚ) (red green blue : ℚ)
  | text (content : String) (x y fontSize : ℚ) (bold : Bool)
deriving DecidableEq

/-- The header-label loop: `for i in headerLabels: drawText(label,
currentX + 5, currentY - 20, 12, bold); currentX += colWidths[i]`. -/
def headerTextsAux (currentY : ℚ) : List String → List ℚ → ℚ → List DrawItem
  | [], _, _ => []
  | _ :: _, [], _ => []
  | label :: labels, w :: ws, currentX =>
    DrawItem.text label (currentX + 5) (currentY - 20) 12 true
      :: headerTextsAux currentY labels ws (currentX + w)

/-- The header block drawn at a given `currentY`: the grey background
rectangle and the four bold column labels.  It is drawn once on the first
page (at `tableTop`) and once on every page the row loop adds. -/
def headerItems (currentY : ℚ) : List DrawItem :=
  DrawItem.rectangle margin (currentY - headerHeight) (pageWidth - margin * 2)
      headerHeight 0.9 0.9 0.9
    :: headerTextsAux currentY headerLabels colWidths margin

/-- The four `drawText` calls of one data row (`currentX` starts at
`margin` and advances by the column widths). -/
def rowTexts (row : RowData) (currentY : ℚ) : List DrawItem :=
  let x0 := margin
  let x1 := x0 + colWidths.getD 0 0
  let x2 := x1 + colWidths.getD 1 0
  let x3 := x2 + colWidths.getD 2 0
  [DrawItem.text row.name (x0 + 5) (currentY - 15) 10 false,
   DrawItem.text (toString row.age) (x1 + 5) (currentY - 15) 10 false,
   DrawItem.text row.email (x2 + 5) (currentY - 15) 10 false,
   DrawItem.text row.occupation (x3 + 5) (currentY - 15) 10 false]

/-- Everything drawn for row `rowIndex`: the alternating background
rectangle on odd rows, then the four cell texts. -/
def rowItems (rowIndex : Nat) (row : RowData) (currentY : ℚ) : List DrawItem :=
  (if rowIndex % 2 = 1 then
    [DrawItem.rectangle margin (currentY - rowHeight) (pageWidth - margin * 2)
        rowHeight 0.95 0.95 0.95]
  else [])
  ++ rowTexts row currentY

/-- `Math.floor((currentY - margin) / rowHeight)` with
`currentY = tableTop - headerHeight` — rows fitting on the first page. -/
def maxRowsOnFirstPage : Nat :=
  (⌊(tableTop - headerHeight - margin) / rowHeight⌋).toNat

/-- `Math.floor((pageHeight - margin * 2 - headerHeight) / rowHeight)` —
rows fitting on each subsequent page. -/
def rowsPerPage : Nat :=
  (⌊(pageHeight - margin * 2 - headerHeight) / rowHeight⌋).toNat

/-- The page index the row loop assigns to record `i` (derived from the
loop's new-page condition): the first page up to `maxRowsOnFirstPage`
records, then `rowsPerPage` records per page. -/
def pageOf (i : Nat) : Nat :=
  if i < maxRowsOnFirstPage then 0 else (i - maxRowsOnFirstPage) / rowsPerPage + 1

/-- The row loop's mutable state: the pages with their draw commands (the
current page is the last), `currentY` and `pageIndex`. -/
structure DrawState where
  pages : List (List DrawItem)
  currentY : ℚ
  pageIndex : Nat

/-- What `createPdf` draws on the first page before the row loop: title,
subtitle, description, then the table header at `tableTop`. -/
def firstPageItems (rowCount : Nat) : List DrawItem :=
  [DrawItem.text "Sample PDF Report" margin (pageHeight - margin) 18 true,
   DrawItem.text ("Generated with " ++ toString rowCount ++ " rows of data")
     margin (pageHeight - margin - 25) 14 false,
   DrawItem.text "This PDF was generated on the client-side using Web Workers and pdf-lib"
     margin (pageHeight - margin - 50) 10 false]
  ++ headerItems tableTop

/-- The new-page check at the top of the row loop: when the current page
is full (`rowIndex ≥ maxRowsOnFirstPage` while on page 0,
`rowIndex ≥ maxRowsOnFirstPage + pageIndex * rowsPerPage` afterwards),
`addPage`, draw a fresh header on the new page and reset `currentY` below
it; otherwise nothing happens. -/
def pageAdvance (rowIndex : Nat) (st : DrawState) : DrawState :=
  if (st.pageIndex = 0 ∧ rowIndex ≥ maxRowsOnFirstPage)
    ∨ (0 < st.pageIndex ∧ rowIndex ≥ maxRowsOnFirstPage + st.pageIndex * rowsPerPage) then
    { pages := st.pages ++ [headerItems (pageHeight - margin)]
      currentY := (pageHeight - margin) - headerHeight
      pageIndex := st.pageIndex + 1 }
  else st

/-- One iteration of the row loop: the new-page check, then the row drawn
on `pages[pageIndex]` and `currentY` advanced by `rowHeight`. -/
def drawStep (p : Nat × RowData) (st : DrawState) : DrawState :=
  let st := pageAdvance p.1 st
  { st with
    pages := modifyAt st.pages st.pageIndex
      (fun page => page ++ rowItems p.1 p.2 st.currentY)
    currentY := st.currentY - rowHeight }

/-- The `while (rowIndex < data.length)` loop of `createPdf`. -/
def drawRows : List (Nat × RowData) → DrawState → DrawState
  | [], st => st
  | p :: rest, st => drawRows rest (drawStep p st)

/-- The pages `createPdf(rowCount)` draws: the initialized first page,
then the row loop over the generated data. -/
def createPdfPages (rowCount : Nat) : DrawState :=
  drawRows ((generateDummyData rowCount).enum)
    { pages := [firstPageItems rowCount]
      currentY := tableTop - headerHeight
      pageIndex := 0 }

end PdfLibWorker

/-! ### PDFme worker pagination (`pdfMeWorker.ts`)

`createPdf` builds a template whose page schemas hold positioned text
fields, and per-page input records; `maxRowsPerPage = 30`.  The template
cache is not modelled: the definitions below follow the cache-miss
construction path of `createTemplate` and `generateInputs`. -/

namespace PdfMeWorker

/-- One positioned text field of a page schema (`type: 'text'` is the
`fieldType`; an absent `backgroundColor` is `none`). -/
structure Field where
  name : String
  fieldType : String
  x : ℚ
  y : ℚ
  width : ℚ
  height : ℚ
  fontSize : ℚ
  fontColor : String
  backgroundColor : Option String
  alignment : String
deriving DecidableEq

/-- `createBaseSchema()`: the page title field and the four column-header
fields present on every page's schema. -/
def baseSchema : List Field :=
  [{ name := "header", fieldType := "text", x := 30, y := 30, width := 535,
     height := 20, fontSize := 18, fontColor := "#000000",
     backgroundColor := none, alignment := "center" },
   { name := "nameHeader", fieldType := "text", x := 30, y := 100, width := 130,
     height := 15, fontSize := 12, fontColor := "#ffffff",
     backgroundColor := some "#4472C4", alignment := "center" },
   { name := "ageHeader", fieldType := "text", x := 160, y := 100, width := 60,
     height := 15, fontSize := 12, fontColor := "#ffffff",
     backgroundColor := some "#4472C4", alignment := "center" },
   { name := "emailHeader", fieldType := "text", x := 220, y := 100, width := 180,
     height := 15, fontSize := 12, fontColor := "#ffffff",
     backgroundColor := some "#4472C4", alignment := "center" },
   { name := "occupationHeader", fieldType := "text", x := 400, y := 100, width := 150,
     height := 15, fontSize := 12, fontColor := "#ffffff",
     backgroundColor := some "#4472C4", alignment := "center" }]

/-- `const rowHeight = 20`. -/
def rowHeight : ℚ := 20

/-- `const startY = 120`. -/
def startY : ℚ := 120

/-- `const maxRowsPerPage = 30` (set in `createPdf`). -/
def maxRowsPerPage : Nat := 30

/-- The four field schemas of row `i`, placed at
`yPosition = startY + rowsOnCurrentPage * rowHeight` with the alternating
background colour `i % 2 === 0 ? '#FFFFFF' : '#E6F0FF'`. -/
def rowFields (i rowsOnCurrentPage : Nat) : List Field :=
  let yPosition : ℚ := startY + (rowsOnCurrentPage : ℚ) * rowHeight
  let backgroundColor := if i % 2 = 0 then "#FFFFFF" else "#E6F0FF"
  [{ name := "name_" ++ toString i, fieldType := "text", x := 30, y := yPosition,
     width := 130, height := rowHeight, fontSize := 10, fontColor := "#000000",
     backgroundColor := some backgroundColor, alignment := "left" },
   { name := "age_" ++ toString i, fieldType := "text", x := 160, y := yPosition,
     width := 60, height := rowHeight, fontSize := 10, fontColor := "#000000",
     backgroundColor := some backgroundColor, alignment := "center" },
   { name := "email_" ++ toString i, fieldType := "text", x := 220, y := yPosition,
     width := 180, height := rowHeight, fontSize := 10, fontColor := "#000000",
     backgroundColor := some backgroundColor, alignment := "left" },
   { name := "occupation_" ++ toString i, fieldType := "text", x := 400, y := yPosition,
     width := 150, height := rowHeight, fontSize := 10, fontColor := "#000000",
     backgroundColor := some backgroundColor, alignment := "left" }]

/-- `Math.ceil(a / b)` on non-negative integers. -/
def ceilDiv (a b : Nat) : Nat := (a + b - 1) / b

/-- The template-construction loop state: the per-page field schemas and
the pagination counters. -/
structure TemplateState where
  schemas : List (List Field)
  currentPage : Nat
  rowsOnCurrentPage : Nat
deriving DecidableEq

/-- One iteration of the row loop of `createTemplate`: start a new page
when the current one is full, then push the row's four fields onto the
current page's schema. -/
def templateStep (maxRows : Nat) (st : TemplateState) (i : Nat) : TemplateState :=
  let st :=
    if st.rowsOnCurrentPage ≥ maxRows then
      { st with currentPage := st.currentPage + 1, rowsOnCurrentPage := 0 }
    else st
  { st with
    schemas := modifyAt st.schemas st.currentPage (fun page => page ++ rowFields i st.rowsOnCurrentPage)
    rowsOnCurrentPage := st.rowsOnCurrentPage + 1 }

/-- `createTemplate(rowCount, maxRowsPerPage)` (cache-miss path): start
from `totalPages = Math.ceil(rowCount / maxRowsPerPage)` copies of the
base schema (the first placed at initialization, the rest pre-allocated),
then run the row loop. -/
def createTemplate (rowCount maxRows : Nat) : TemplateState :=
  (List.range rowCount).foldl (templateStep maxRows)
    { schemas := baseSchema :: List.replicate (ceilDiv rowCount maxRows - 1) baseSchema
      currentPage := 0
      rowsOnCurrentPage := 0 }

/-- A page's input record, as the list of its (field name, text) entries. -/
abbrev PageInput : Type := List (String × String)

/-- The header inputs, present on the first page only. -/
def headerEntries (rowCount : Nat) : PageInput :=
  [("header", "Sample PDF Report - " ++ toString rowCount ++ " Rows"),
   ("nameHeader", "Name"),
   ("ageHeader", "Age"),
   ("emailHeader", "Email"),
   ("occupationHeader", "Occupation")]

/-- The input entries of row `i`. -/
def rowEntries (i : Nat) (row : RowData) : List (String × String) :=
  [("name_" ++ toString i, row.name),
   ("age_" ++ toString i, toString row.age),
   ("email_" ++ toString i, row.email),
   ("occupation_" ++ toString i, row.occupation)]

/-- The input-filling loop state of `generateInputs`. -/
structure InputsState where
  inputs : List PageInput
  currentPage : Nat
  rowsOnCurrentPage : Nat

/-- One iteration of the `data.forEach((rowData, i) => ...)` loop of
`generateInputs`: advance to a fresh page when the current one is full,
then record the row's four input entries on the current page. -/
def inputsStep (maxRows : Nat) (st : InputsState) (p : Nat × RowData) : InputsState :=
  let st :=
    if st.rowsOnCurrentPage ≥ maxRows then
      { st with currentPage := st.currentPage + 1, rowsOnCurrentPage := 0 }
    else st
  { st with
    inputs := modifyAt st.inputs st.currentPage (fun page => page ++ rowEntries p.1 p.2)
    rowsOnCurrentPage := st.rowsOnCurrentPage + 1 }

/-- `generateInputs(data, template, rowCount, maxRowsPerPage)`:
`totalPages` empty page inputs (headers on page 0 only), filled by the
pagination loop.  `totalPages` is the length of the template's schema
list. -/
def generateInputs (data : List RowData) (totalPages rowCount maxRows : Nat) :
    List PageInput :=
  ((data.enum).foldl (inputsStep maxRows)
    { inputs := (List.range totalPages).map
        (fun pageIndex => if pageIndex = 0 then headerEntries rowCount else [])
      currentPage := 0
      rowsOnCurrentPage := 0 }).inputs

/-- The template `createPdf(rowCount)` builds (with `maxRowsPerPage = 30`). -/
def createPdfTemplate (rowCount : Nat) : TemplateState :=
  createTemplate rowCount maxRowsPerPage

/-- The inputs `createPdf(rowCount)` passes to the PDFme `generate` call. -/
def createPdfInputs (rowCount : Nat) : List PageInput :=
  generateInputs (generateDummyData rowCount)
    (createPdfTemplate rowCount).schemas.length rowCount maxRowsPerPage

end PdfMeWorker

/-! ### Witness fixtures: concrete states and environments -/

namespace Wit

/-- A boundary environment answering with a successful response. -/
def envOk : PdfMe.RunEnv :=
  { response := BoundaryEvent.message (WorkerMsg.ok "JVBERi0x" ⟨1, 2⟩)
    workerStartTime := 0
    workerEndTime := 10 }

/-- A boundary environment answering with a worker-reported failure. -/
def envFail : PdfMe.RunEnv :=
  { response := BoundaryEvent.message (WorkerMsg.fail none)
    workerStartTime := 3
    workerEndTime := 4 }

/-- The initial module state of the PDFme service. -/
def s0 : PdfMe.PdfMeState :=
  { pool := { pool := [], nextId := 0, terminated := [] }
    pdfCache := []
    requestsSent := 0
    acquires := 0
    releases := 0 }

/-- The result `envOk` produces for a cache-miss run. -/
def r0 : PdfGenerationResult :=
  { pdfData := "JVBERi0x"
    metrics :=
      { dataGenerationTime := 1
        totalTime := 2
        workerStartTime := some 0
        workerEndTime := some 10
        totalProcessTime := some (10 - 0) } }

/-- A service state whose result cache already holds `r0` for row count 2. -/
def sCached : PdfMe.PdfMeState :=
  { pool := { pool := [], nextId := 0, terminated := [] }
    pdfCache := [(2, r0)]
    requestsSent := 0
    acquires := 0
    releases := 0 }

end Wit

/-! ### Helper lemmas -/

theorem mapGet_cons {α : Type} (p : Nat × α) (rest : List (Nat × α)) (k : Nat) :
    mapGet (p :: rest) k = if p.1 = k then some p.2 else mapGet rest k := by
  by_cases h : p.1 = k
  · rw [mapGet, List.find?_cons_of_pos _ (by simpa using h)]
    simp [h]
  · rw [mapGet, List.find?_cons_of_neg _ (by simpa using h)]
    simp [h, mapGet]

theorem mapSet_cons {α : Type} (p : Nat × α) (rest : List (Nat × α)) (k : Nat) (v : α) :
    mapSet (p :: rest) k v
      = if p.1 = k then (k, v) :: rest else p :: mapSet rest k v := by
  simp [mapSet]

theorem mapGet_set_self {α : Type} (m : List (Nat × α)) (k : Nat) (v : α) :
    mapGet (mapSet m k v) k = some v := by
  induction m with
  | nil => simp [mapSet, mapGet_cons]
  | cons p rest ih =>
    by_cases h : p.1 = k
    · simp [mapSet_cons, h, mapGet_cons]
    · simp [mapSet_cons, h, mapGet_cons, ih]

theorem mapGet_set_ne {α : Type} (m : List (Nat × α)) (k k' : Nat) (v : α)
    (h : k' ≠ k) : mapGet (mapSet m k v) k' = mapGet m k' := by
  induction m with
  | nil => simp [mapSet, mapGet_cons, Ne.symm h, mapGet]
  | cons p rest ih =>
    by_cases hp : p.1 = k
    · have hpk' : p.1 ≠ k' := by rw [hp]; exact Ne.symm h
      simp [mapSet_cons, hp, mapGet_cons, Ne.symm h, hpk']
    · simp [mapSet_cons, hp, mapGet_cons, ih]

theorem length_modifyAt {α : Type} (l : List α) (i : Nat) (f : α → α) :
    (modifyAt l i f).length = l.length := by
  induction l generalizing i with
  | nil => simp [modifyAt]
  | cons a l ih =>
    cases i with
    | zero => simp [modifyAt]
    | succ i => simp [modifyAt, ih]

theorem getElem?_modifyAt {α : Type} (l : List α) (i j : Nat) (f : α → α) :
    (modifyAt l i f)[j]? = if i = j then (l[j]?).map f else l[j]? := by
  induction l generalizing i j with
  | nil => simp [modifyAt]
  | cons a l ih =>
    cases i with
    | zero =>
      cases j with
      | zero => simp [modifyAt]
      | succ j => simp [modifyAt]
    | succ i =>
      cases j with
      | zero => simp [modifyAt]
      | succ j => simpa [modifyAt] using ih i j

theorem mem_modifyAt {α : Type} {l : List α} {i : Nat} {f : α → α} {b : α}
    (h : b ∈ modifyAt l i f) : b ∈ l ∨ ∃ a, a ∈ l ∧ b = f a := by
  induction l generalizing i with
  | nil => simp [modifyAt] at h
  | cons a l ih =>
    cases i with
    | zero =>
      simp only [modifyAt] at h
      rcases List.mem_cons.mp h with h | h
      · exact Or.inr ⟨a, List.mem_cons_self a l, h⟩
      · exact Or.inl (List.mem_cons_of_mem a h)
    | succ i =>
      simp only [modifyAt] at h
      rcases List.mem_cons.mp h with h | h
      · exact Or.inl (h ▸ List.mem_cons_self a l)
      · rcases ih h with h' | ⟨a', ha', hb⟩
        · exact Or.inl (List.mem_cons_of_mem a h')
        · exact Or.inr ⟨a', List.mem_cons_of_mem a ha', hb⟩

/-! ### C6 / C8: the synthetic data generator -/

/-- C6: for every `rowCount ≥ 0` the generator returns exactly `rowCount`
records; record `i` has name `Person ${i+1}`, age `20 + (i % 40)`, email
`person${i+1}@example.com`, and the `(i % 5)`-th entry of the fixed
5-element occupation set; `rowCount = 0` yields the empty sequence. -/
theorem dummyData_spec (n i : Nat) (h : i < n) :
    (generateDummyData n).length = n
    ∧ generateDummyData 0 = []
    ∧ OCCUPATIONS = ["Engineer", "Designer", "Manager", "Developer", "Analyst"]
    ∧ OCCUPATIONS.length = 5
    ∧ (generateDummyData n)[i]? = some
        { name := "Person " ++ toString (i + 1)
          age := 20 + i % 40
          email := "person" ++ toString (i + 1) ++ "@example.com"
          occupation := OCCUPATIONS.getD (i % 5) "" } := by
  refine ⟨?_, rfl, rfl, rfl, ?_⟩
  · simp [generateDummyData]
  · simp [generateDummyData, List.getElem?_map, List.getElem?_range, h]

/-- Witness for C6 at `rowCount = 7`, `i = 3`. -/
theorem dummyData_spec_witness :
    (generateDummyData 7).length = 7
    ∧ generateDummyData 0 = []
    ∧ OCCUPATIONS = ["Engineer", "Designer", "Manager", "Developer", "Analyst"]
    ∧ OCCUPATIONS.length = 5
    ∧ (generateDummyData 7)[3]? = some
        { name := "Person " ++ toString (3 + 1)
          age := 20 + 3 % 40
          email := "person" ++ toString (3 + 1) ++ "@example.com"
          occupation := OCCUPATIONS.getD (3 % 5) "" } :=
  dummyData_spec 7 3 (by decide)

theorem generateDummyDataCached_of_none (c : List (Nat × List RowData)) (n : Nat)
    (h : mapGet c n = none) :
    DataCache.generateDummyDataCached c n
      = (generateDummyData n, mapSet c n (generateDummyData n)) := by
  simp only [DataCache.generateDummyDataCached, h]
  rfl

theorem generateDummyDataCached_of_some (c : List (Nat × List RowData)) (n : Nat)
    (v : List RowData) (h : mapGet c n = some v) :
    DataCache.generateDummyDataCached c n = (v, c) := by
  simp only [DataCache.generateDummyDataCached, h]

/-- C8: the data generator is deterministic and idempotent — on a
consistent cache the caching variant returns exactly `generateDummyData
rowCount` and keeps the cache consistent, and on any cache two consecutive
calls with the same `rowCount` return identical record sequences. -/
theorem dummyData_idempotent (c : List (Nat × List RowData)) (n : Nat)
    (hc : ∀ k v, mapGet c k = some v → v = generateDummyData k) :
    (DataCache.generateDummyDataCached c n).1 = generateDummyData n
    ∧ (∀ c' : List (Nat × List RowData),
        (DataCache.generateDummyDataCached
            (DataCache.generateDummyDataCached c' n).2 n).1
          = (DataCache.generateDummyDataCached c' n).1)
    ∧ (∀ k v, mapGet (DataCache.generateDummyDataCached c n).2 k = some v →
        v = generateDummyData k) := by
  refine ⟨?_, ?_, ?_⟩
  · cases hm : mapGet c n with
    | some v => rw [generateDummyDataCached_of_some c n v hm]; exact (hc n v hm).symm ▸ rfl
    | none => rw [generateDummyDataCached_of_none c n hm]
  · intro c'
    cases hm : mapGet c' n with
    | some v =>
      rw [generateDummyDataCached_of_some c' n v hm,
        generateDummyDataCached_of_some c' n v hm]
    | none =>
      rw [generateDummyDataCached_of_none c' n hm,
        generateDummyDataCached_of_some _ n _ (mapGet_set_self c' n _)]
  · intro k v hv
    cases hm : mapGet c n with
    | some w => rw [generateDummyDataCached_of_some c n w hm] at hv; exact hc k v hv
    | none =>
      rw [generateDummyDataCached_of_none c n hm] at hv
      by_cases hk : k = n
      · subst hk; rw [mapGet_set_self] at hv; exact (Option.some_inj.mp hv).symm
      · rw [mapGet_set_ne c n k _ hk] at hv; exact hc k v hv

/-- Witness for C8: the empty cache, `rowCount = 2`. -/
theorem dummyData_idempotent_witness :
    (DataCache.generateDummyDataCached [] 2).1 = generateDummyData 2
    ∧ (DataCache.generateDummyDataCached
          (DataCache.generateDummyDataCached [] 2).2 2).1
        = (DataCache.generateDummyDataCached [] 2).1 :=
  ⟨(dummyData_idempotent [] 2 (fun _ _ h => nomatch h)).1,
   (dummyData_idempotent [] 2 (fun _ _ h => nomatch h)).2.1 []⟩

/-! ### C2: the worker pool -/

theorem applyPoolOp_length_le (s : Pool.PoolState) (op : Pool.PoolOp)
    (h : s.pool.length ≤ Pool.MAX_POOL_SIZE) :
    (Pool.applyPoolOp s op).pool.length ≤ Pool.MAX_POOL_SIZE := by
  cases op with
  | acquire =>
    cases hp : s.pool with
    | nil => simp [Pool.applyPoolOp, Pool.getWorker, hp]
    | cons w rest =>
      simp only [Pool.applyPoolOp, Pool.getWorker, hp]
      simp [hp] at h
      omega
  | release w =>
    by_cases hlt : s.pool.length < Pool.MAX_POOL_SIZE
    · simp only [Pool.applyPoolOp, Pool.releaseWorker, hlt, if_true, List.length_cons]
      omega
    · simpa [Pool.applyPoolOp, Pool.releaseWorker, hlt] using h

/-- C2: the pool size never exceeds `MAX_POOL_SIZE = 2` under any sequence
of `getWorker`/`releaseWorker` calls; releasing into a full pool records
the worker as terminated and leaves the pool unchanged; `getWorker` pops
the most recently released idle worker (LIFO), and spawns a fresh worker
only when the pool is empty. -/
theorem pool_invariants :
    (∀ (s : Pool.PoolState) (ops : List Pool.PoolOp),
        s.pool.length ≤ Pool.MAX_POOL_SIZE →
        (Pool.applyPoolOps s ops).pool.length ≤ Pool.MAX_POOL_SIZE)
    ∧ (∀ (s : Pool.PoolState) (w : Nat), ¬ s.pool.length < Pool.MAX_POOL_SIZE →
        Pool.releaseWorker s w = { s with terminated := w :: s.terminated })
    ∧ (∀ (s : Pool.PoolState) (w : Nat), s.pool.length < Pool.MAX_POOL_SIZE →
        Pool.getWorker (Pool.releaseWorker s w) = (w, s))
    ∧ (∀ (s : Pool.PoolState) (w : Nat) (rest : List Nat), s.pool = w :: rest →
        Pool.getWorker s = (w, { s with pool := rest }))
    ∧ (∀ (s : Pool.PoolState), s.pool = [] →
        Pool.getWorker s = (s.nextId, { s with nextId := s.nextId + 1 })) := by
  refine ⟨?_, ?_, ?_, ?_, ?_⟩
  · intro s ops h
    induction ops generalizing s with
    | nil => exact h
    | cons op ops ih =>
      exact ih (Pool.applyPoolOp s op) (applyPoolOp_length_le s op h)
  · intro s w h
    simp [Pool.releaseWorker, h]
  · intro s w h
    simp [Pool.releaseWorker, h, Pool.getWorker]
  · intro s w rest h
    simp [Pool.getWorker, h]
  · intro s h
    simp [Pool.getWorker, h]

/-- Witness for C2: releasing three workers into the empty pool keeps the
size at 2, and a release/acquire round trip returns the released worker. -/
theorem pool_invariants_witness :
    (Pool.applyPoolOps { pool := [], nextId := 0, terminated := [] }
        [Pool.PoolOp.release 5, Pool.PoolOp.release 6, Pool.PoolOp.release 7,
         Pool.PoolOp.acquire]).pool.length ≤ Pool.MAX_POOL_SIZE
    ∧ Pool.releaseWorker { pool := [8, 9], nextId := 10, terminated := [] } 11
        = { pool := [8, 9], nextId := 10, terminated := [11] }
    ∧ Pool.getWorker
        (Pool.releaseWorker { pool := [], nextId := 0, terminated := [] } 4)
        = (4, { pool := [], nextId := 0, terminated := [] }) :=
  ⟨pool_invariants.1 _ _ (by decide),
   pool_invariants.2.1 { pool := [8, 9], nextId := 10, terminated := [] } 11 (by decide),
   pool_invariants.2.2.1 { pool := [], nextId := 0, terminated := [] } 4 (by decide)⟩

/-! ### C1 / C9 / C10: the pooled PDFme service -/

theorem pdfme_hit (env : PdfMe.RunEnv) (s : PdfMe.PdfMeState) (N : Nat)
    (r : PdfGenerationResult) (h : mapGet s.pdfCache N = some r) :
    PdfMe.generatePdfWithPdfMe env s N = (RunOutcome.resolved r, s) := by
  simp [PdfMe.generatePdfWithPdfMe, h]

theorem pdfme_miss_ok (env : PdfMe.RunEnv) (s : PdfMe.PdfMeState) (N : Nat)
    (data : String) (m : WireMetrics)
    (hm : mapGet s.pdfCache N = none)
    (he : env.response = BoundaryEvent.message (WorkerMsg.ok data m)) :
    PdfMe.generatePdfWithPdfMe env s N
      = (RunOutcome.resolved
          { pdfData := data
            metrics :=
              { dataGenerationTime := m.dataGenerationTime
                totalTime := m.totalTime
                workerStartTime := some env.workerStartTime
                workerEndTime := some env.workerEndTime
                totalProcessTime := some (env.workerEndTime - env.workerStartTime) } },
         { pool := Pool.releaseWorker (Pool.getWorker s.pool).2 (Pool.getWorker s.pool).1
           pdfCache := mapSet s.pdfCache N
             { pdfData := data
               metrics :=
                 { dataGenerationTime := m.dataGenerationTime
                   totalTime := m.totalTime
                   workerStartTime := some env.workerStartTime
                   workerEndTime := some env.workerEndTime
                   totalProcessTime := some (env.workerEndTime - env.workerStartTime) } }
           requestsSent := s.requestsSent + 1
           acquires := s.acquires + 1
           releases := s.releases + 1 }) := by
  simp [PdfMe.generatePdfWithPdfMe, hm, he]

theorem pdfme_miss_fail (env : PdfMe.RunEnv) (s : PdfMe.PdfMeState) (N : Nat)
    (err : Option String)
    (hm : mapGet s.pdfCache N = none)
    (he : env.response = BoundaryEvent.message (WorkerMsg.fail err)) :
    PdfMe.generatePdfWithPdfMe env s N
      = (RunOutcome.rejected (orElseStr err "PDF generation with PDFme failed"),
         { pool := Pool.releaseWorker (Pool.getWorker s.pool).2 (Pool.getWorker s.pool).1
           pdfCache := s.pdfCache
           requestsSent := s.requestsSent + 1
           acquires := s.acquires + 1
           releases := s.releases + 1 }) := by
  simp [PdfMe.generatePdfWithPdfMe, hm, he]

theorem pdfme_miss_err (env : PdfMe.RunEnv) (s : PdfMe.PdfMeState) (N : Nat)
    (msg : String)
    (hm : mapGet s.pdfCache N = none)
    (he : env.response = BoundaryEvent.errorEvent msg) :
    PdfMe.generatePdfWithPdfMe env s N
      = (RunOutcome.rejected ("PDFme worker error: " ++ msg),
         { pool := Pool.releaseWorker (Pool.getWorker s.pool).2 (Pool.getWorker s.pool).1
           pdfCache := s.pdfCache
           requestsSent := s.requestsSent + 1
           acquires := s.acquires + 1
           releases := s.releases + 1 }) := by
  simp [PdfMe.generatePdfWithPdfMe, hm, he]

theorem pdfme_resolved_cached (env : PdfMe.RunEnv) (s : PdfMe.PdfMeState) (N : Nat)
    (r : PdfGenerationResult)
    (h : (PdfMe.generatePdfWithPdfMe env s N).1 = RunOutcome.resolved r) :
    mapGet (PdfMe.generatePdfWithPdfMe env s N).2.pdfCache N = some r := by
  cases hm : mapGet s.pdfCache N with
  | some r0 =>
    rw [pdfme_hit env s N r0 hm] at h ⊢
    have h' : RunOutcome.resolved r0 = RunOutcome.resolved r := h
    injection h' with h'
    show mapGet s.pdfCache N = some r
    rw [hm, h']
  | none =>
    cases henv : env.response with
    | message msg =>
      cases msg with
      | ok data m =>
        rw [pdfme_miss_ok env s N data m hm henv] at h ⊢
        have h' : RunOutcome.resolved _ = RunOutcome.resolved r := h
        injection h' with h'
        show mapGet (mapSet s.pdfCache N _) N = some r
        rw [mapGet_set_self, h']
      | fail err =>
        rw [pdfme_miss_fail env s N err hm henv] at h
        exact RunOutcome.noConfusion h
    | errorEvent msg =>
      rw [pdfme_miss_err env s N msg hm henv] at h
      exact RunOutcome.noConfusion h

theorem pdfme_preserves_cache (env : PdfMe.RunEnv) (s : PdfMe.PdfMeState) (M N : Nat)
    (r : PdfGenerationResult) (h : mapGet s.pdfCache N = some r) :
    mapGet (PdfMe.generatePdfWithPdfMe env s M).2.pdfCache N = some r := by
  cases hm : mapGet s.pdfCache M with
  | some r0 => rw [pdfme_hit env s M r0 hm]; exact h
  | none =>
    have hMN : N ≠ M := by
      intro he
      rw [he, hm] at h
      exact Option.noConfusion h
    cases henv : env.response with
    | message msg =>
      cases msg with
      | ok data m =>
        rw [pdfme_miss_ok env s M data m hm henv]
        show mapGet (mapSet s.pdfCache M _) N = some r
        rw [mapGet_set_ne _ _ _ _ hMN]
        exact h
      | fail err =>
        rw [pdfme_miss_fail env s M err hm henv]
        exact h
    | errorEvent msg =>
      rw [pdfme_miss_err env s M msg hm henv]
      exact h

theorem pdfme_runSeq_preserves (runs : List (PdfMe.RunEnv × Nat)) (s : PdfMe.PdfMeState)
    (N : Nat) (r : PdfGenerationResult) (h : mapGet s.pdfCache N = some r) :
    mapGet (PdfMe.runSeq runs s).pdfCache N = some r := by
  induction runs generalizing s with
  | nil => exact h
  | cons p rs ih =>
    show mapGet (PdfMe.runSeq rs (PdfMe.generatePdfWithPdfMe p.1 s p.2).2).pdfCache N = some r
    exact ih _ (pdfme_preserves_cache p.1 s p.2 N r h)

/-- C1: once a pooled `run(N)` has resolved successfully with result `r`,
every later `run(N)` — after any interleaved sequence of further runs —
returns exactly `r` (bit-identical `pdfData`) with the service state left
unchanged: no request message crosses the boundary and the pool sees no
acquire or release (the counters and the pool are part of the state
equality). -/
theorem pdfme_cache_law (env env' : PdfMe.RunEnv) (s : PdfMe.PdfMeState) (N : Nat)
    (r : PdfGenerationResult)
    (h : (PdfMe.generatePdfWithPdfMe env s N).1 = RunOutcome.resolved r)
    (runs : List (PdfMe.RunEnv × Nat)) :
    PdfMe.generatePdfWithPdfMe env'
        (PdfMe.runSeq runs (PdfMe.generatePdfWithPdfMe env s N).2) N
      = (RunOutcome.resolved r,
         PdfMe.runSeq runs (PdfMe.generatePdfWithPdfMe env s N).2) :=
  pdfme_hit env' _ N r
    (pdfme_runSeq_preserves runs _ N r (pdfme_resolved_cached env s N r h))

/-- Witness for C1: a successful `run(5)` from the initial state, then a
second `run(5)` under a boundary that would fail — it still resolves with
the cached result and leaves the state unchanged. -/
theorem pdfme_cache_law_witness :
    PdfMe.generatePdfWithPdfMe Wit.envFail
        (PdfMe.runSeq [] (PdfMe.generatePdfWithPdfMe Wit.envOk Wit.s0 5).2) 5
      = (RunOutcome.resolved Wit.r0,
         PdfMe.runSeq [] (PdfMe.generatePdfWithPdfMe Wit.envOk Wit.s0 5).2) :=
  pdfme_cache_law Wit.envOk Wit.envFail Wit.s0 5 Wit.r0 rfl []

theorem pdfme_miss_counts (env : PdfMe.RunEnv) (s : PdfMe.PdfMeState) (N : Nat)
    (hm : mapGet s.pdfCache N = none) :
    (PdfMe.generatePdfWithPdfMe env s N).2.requestsSent = s.requestsSent + 1
    ∧ (PdfMe.generatePdfWithPdfMe env s N).2.acquires = s.acquires + 1 := by
  cases henv : env.response with
  | message msg =>
    cases msg with
    | ok data m => rw [pdfme_miss_ok env s N data m hm henv]; exact ⟨rfl, rfl⟩
    | fail err => rw [pdfme_miss_fail env s N err hm henv]; exact ⟨rfl, rfl⟩
  | errorEvent msg => rw [pdfme_miss_err env s N msg hm henv]; exact ⟨rfl, rfl⟩

/-- C9: a rejected pooled run leaves the result cache unchanged (the entry
for `N` was and stays absent), so the next `run(N)` performs a full fresh
boundary round trip (a new request message and a new pool acquire). -/
theorem pdfme_cache_unchanged_on_failure (env : PdfMe.RunEnv) (s : PdfMe.PdfMeState)
    (N : Nat) (emsg : String)
    (h : (PdfMe.generatePdfWithPdfMe env s N).1 = RunOutcome.rejected emsg) :
    mapGet s.pdfCache N = none
    ∧ (PdfMe.generatePdfWithPdfMe env s N).2.pdfCache = s.pdfCache
    ∧ ∀ env' : PdfMe.RunEnv,
        (PdfMe.generatePdfWithPdfMe env'
            (PdfMe.generatePdfWithPdfMe env s N).2 N).2.requestsSent
          = (PdfMe.generatePdfWithPdfMe env s N).2.requestsSent + 1
        ∧ (PdfMe.generatePdfWithPdfMe env'
            (PdfMe.generatePdfWithPdfMe env s N).2 N).2.acquires
          = (PdfMe.generatePdfWithPdfMe env s N).2.acquires + 1 := by
  cases hm : mapGet s.pdfCache N with
  | some r0 =>
    rw [pdfme_hit env s N r0 hm] at h
    exact RunOutcome.noConfusion h
  | none =>
    have hcache : (PdfMe.generatePdfWithPdfMe env s N).2.pdfCache = s.pdfCache := by
      cases henv : env.response with
      | message msg =>
        cases msg with
        | ok data m =>
          exfalso
          rw [pdfme_miss_ok env s N data m hm henv] at h
          exact RunOutcome.noConfusion h
        | fail err => rw [pdfme_miss_fail env s N err hm henv]
      | errorEvent msg => rw [pdfme_miss_err env s N msg hm henv]
    refine ⟨rfl, hcache, ?_⟩
    intro env'
    exact pdfme_miss_counts env' _ N (by rw [hcache]; exact hm)

/-- Witness for C9: a worker-reported failure on `run(7)` from the initial
state. -/
theorem pdfme_cache_unchanged_on_failure_witness :
    mapGet Wit.s0.pdfCache 7 = none
    ∧ (PdfMe.generatePdfWithPdfMe Wit.envFail Wit.s0 7).2.pdfCache = Wit.s0.pdfCache
    ∧ ∀ env' : PdfMe.RunEnv,
        (PdfMe.generatePdfWithPdfMe env'
            (PdfMe.generatePdfWithPdfMe Wit.envFail Wit.s0 7).2 7).2.requestsSent
          = (PdfMe.generatePdfWithPdfMe Wit.envFail Wit.s0 7).2.requestsSent + 1
        ∧ (PdfMe.generatePdfWithPdfMe env'
            (PdfMe.generatePdfWithPdfMe Wit.envFail Wit.s0 7).2 7).2.acquires
          = (PdfMe.generatePdfWithPdfMe Wit.envFail Wit.s0 7).2.acquires + 1 :=
  pdfme_cache_unchanged_on_failure Wit.envFail Wit.s0 7
    "PDF generation with PDFme failed" rfl

/-- C10: a cache hit returns the stored `GenerationResult` unchanged — the
whole invocation is the pair `(resolved r, s)`, and in particular every
metrics field of the returned result equals the stored one, whatever the
current clock readings (`env` is arbitrary): nothing is re-stamped. -/
theorem pdfme_cache_hit_frame (env : PdfMe.RunEnv) (s : PdfMe.PdfMeState) (N : Nat)
    (r : PdfGenerationResult) (h : mapGet s.pdfCache N = some r) :
    PdfMe.generatePdfWithPdfMe env s N = (RunOutcome.resolved r, s)
    ∧ ∃ r', (PdfMe.generatePdfWithPdfMe env s N).1 = RunOutcome.resolved r'
        ∧ r'.pdfData = r.pdfData
        ∧ r'.metrics.dataGenerationTime = r.metrics.dataGenerationTime
        ∧ r'.metrics.totalTime = r.metrics.totalTime
        ∧ r'.metrics.workerStartTime = r.metrics.workerStartTime
        ∧ r'.metrics.workerEndTime = r.metrics.workerEndTime
        ∧ r'.metrics.totalProcessTime = r.metrics.totalProcessTime := by
  have hh := pdfme_hit env s N r h
  exact ⟨hh, r, by rw [hh], rfl, rfl, rfl, rfl, rfl, rfl⟩

/-- Witness for C10: a state whose cache holds `r0` at key 2, queried under
a boundary environment with different clock stamps. -/
theorem pdfme_cache_hit_frame_witness :
    PdfMe.generatePdfWithPdfMe Wit.envFail Wit.sCached 2
        = (RunOutcome.resolved Wit.r0, Wit.sCached)
    ∧ ∃ r', (PdfMe.generatePdfWithPdfMe Wit.envFail Wit.sCached 2).1
          = RunOutcome.resolved r'
        ∧ r'.pdfData = Wit.r0.pdfData
        ∧ r'.metrics.dataGenerationTime = Wit.r0.metrics.dataGenerationTime
        ∧ r'.metrics.totalTime = Wit.r0.metrics.totalTime
        ∧ r'.metrics.workerStartTime = Wit.r0.metrics.workerStartTime
        ∧ r'.metrics.workerEndTime = Wit.r0.metrics.workerEndTime
        ∧ r'.metrics.totalProcessTime = Wit.r0.metrics.totalProcessTime :=
  pdfme_cache_hit_frame Wit.envFail Wit.sCached 2 Wit.r0 rfl

/-! ### C3 / C4 / C5: the no-pool PDF-lib service and its worker -/

theorem processEvents_dead (st : PdfLib.RunState) (evs : List (ℚ × BoundaryEvent))
    (h : st.workerAlive = false) : PdfLib.processEvents st evs = st := by
  induction evs generalizing st with
  | nil => rfl
  | cons p evs ih =>
    have hstep : PdfLib.handleEvent st p.1 p.2 = st := by
      simp [PdfLib.handleEvent, h]
    show PdfLib.processEvents (PdfLib.handleEvent st p.1 p.2) evs = st
    rw [hstep]
    exact ih st h

theorem handleEvent_init (t0 t1 : ℚ) (e : BoundaryEvent) :
    PdfLib.handleEvent (PdfLib.generatePdfWithPdfLib t0) t1 e
      = { workerStartTime := t0
          workerAlive := false
          settled := some (PdfLib.eventOutcome t0 t1 e)
          settleAttempts := 1
          requestsSent := 1 } := by
  simp [PdfLib.handleEvent, PdfLib.generatePdfWithPdfLib]

/-- C3: for every `run` invocation, the promise is settled at most once —
and exactly once as soon as a response or boundary error arrives — no
second request is ever sent (no retry), and the worker-side message
handler posts exactly one response message per request. -/
theorem run_single_settlement (t0 : ℚ) (evs : List (ℚ × BoundaryEvent)) :
    (PdfLib.processEvents (PdfLib.generatePdfWithPdfLib t0) evs).settleAttempts ≤ 1
    ∧ (PdfLib.processEvents (PdfLib.generatePdfWithPdfLib t0) evs).requestsSent = 1
    ∧ (∀ (t1 : ℚ) (e : BoundaryEvent) (rest : List (ℚ × BoundaryEvent)),
        PdfLib.processEvents (PdfLib.generatePdfWithPdfLib t0) ((t1, e) :: rest)
          = { workerStartTime := t0
              workerAlive := false
              settled := some (PdfLib.eventOutcome t0 t1 e)
              settleAttempts := 1
              requestsSent := 1 })
    ∧ (∀ o : Except PdfLibWorker.Thrown (String × WireMetrics),
        (PdfLibWorker.onMessage o).length = 1) := by
  have hstep : ∀ (t1 : ℚ) (e : BoundaryEvent) (rest : List (ℚ × BoundaryEvent)),
      PdfLib.processEvents (PdfLib.generatePdfWithPdfLib t0) ((t1, e) :: rest)
        = { workerStartTime := t0
            workerAlive := false
            settled := some (PdfLib.eventOutcome t0 t1 e)
            settleAttempts := 1
            requestsSent := 1 } := by
    intro t1 e rest
    show PdfLib.processEvents
        (PdfLib.handleEvent (PdfLib.generatePdfWithPdfLib t0) t1 e) rest = _
    rw [handleEvent_init]
    exact processEvents_dead _ rest rfl
  refine ⟨?_, ?_, hstep, ?_⟩
  · cases evs with
    | nil => exact Nat.zero_le 1
    | cons p rest => rw [hstep p.1 p.2 rest]
  · cases evs with
    | nil => rfl
    | cons p rest => rw [hstep p.1 p.2 rest]
  · intro o
    cases o <;> rfl

/-- C4: on a successful run, the merged metrics satisfy
`0 ≤ dataGenerationTime ≤ totalTime ≤ totalProcessTime`, where
`totalProcessTime = workerEndTime - workerStartTime` is stamped on the
orchestrator side.  The hypotheses order the five clock readings as the
events causally occur on one monotonic clock: orchestrator start stamp,
worker entry, after data generation, after serialization, response
arrival. -/
theorem metrics_ordering (t0 tStart tAfterData tAfterSave t1 : ℚ) (data : String)
    (h01 : t0 ≤ tStart) (h12 : tStart ≤ tAfterData)
    (h23 : tAfterData ≤ tAfterSave) (h34 : tAfterSave ≤ t1) :
    ∃ r : PdfGenerationResult,
      (PdfLib.handleEvent (PdfLib.generatePdfWithPdfLib t0) t1
          (BoundaryEvent.message (WorkerMsg.ok data
            (PdfLibWorker.createPdfMetrics tStart tAfterData tAfterSave)))).settled
        = some (RunOutcome.resolved r)
      ∧ r.metrics.totalProcessTime = some (t1 - t0)
      ∧ 0 ≤ r.metrics.dataGenerationTime
      ∧ r.metrics.dataGenerationTime ≤ r.metrics.totalTime
      ∧ r.metrics.totalTime ≤ t1 - t0 := by
  refine ⟨{ pdfData := data
            metrics :=
              { dataGenerationTime := tAfterData - tStart
                totalTime := tAfterSave - tStart
                workerStartTime := some t0
                workerEndTime := some t1
                totalProcessTime := some (t1 - t0) } }, ?_, rfl, ?_, ?_, ?_⟩
  · rw [handleEvent_init]; rfl
  · show (0 : ℚ) ≤ tAfterData - tStart
    linarith
  · show tAfterData - tStart ≤ tAfterSave - tStart
    linarith
  · show tAfterSave - tStart ≤ t1 - t0
    linarith

/-- Witness for C4 at the clock readings 0, 1, 2, 3, 4. -/
theorem metrics_ordering_witness :
    ∃ r : PdfGenerationResult,
      (PdfLib.handleEvent (PdfLib.generatePdfWithPdfLib 0) 4
          (BoundaryEvent.message (WorkerMsg.ok "pdf"
            (PdfLibWorker.createPdfMetrics 1 2 3)))).settled
        = some (RunOutcome.resolved r)
      ∧ r.metrics.totalProcessTime = some (4 - 0)
      ∧ 0 ≤ r.metrics.dataGenerationTime
      ∧ r.metrics.dataGenerationTime ≤ r.metrics.totalTime
      ∧ r.metrics.totalTime ≤ 4 - 0 :=
  metrics_ordering 0 1 2 3 4 "pdf" (by decide) (by decide) (by decide) (by decide)

/-- C5: every failure path rejects with a non-empty message — the
worker-supplied message when a non-empty one is present, the generic
fallback when the error field is absent or empty, and the prefixed
boundary message on an error event. -/
theorem error_propagation (t0 t1 : ℚ) (err : Option String) (msg : String) :
    ((PdfLib.handleEvent (PdfLib.generatePdfWithPdfLib t0) t1
        (BoundaryEvent.message (WorkerMsg.fail err))).settled
      = some (RunOutcome.rejected (orElseStr err "PDF generation failed")))
    ∧ orElseStr err "PDF generation failed" ≠ ""
    ∧ (∀ s, err = some s → s ≠ "" → orElseStr err "PDF generation failed" = s)
    ∧ ((err = none ∨ err = some "") →
        orElseStr err "PDF generation failed" = "PDF generation failed")
    ∧ ((PdfLib.handleEvent (PdfLib.generatePdfWithPdfLib t0) t1
          (BoundaryEvent.errorEvent msg)).settled
        = some (RunOutcome.rejected ("Worker error: " ++ msg)))
    ∧ ("Worker error: " ++ msg) ≠ "" := by
  refine ⟨by rw [handleEvent_init]; rfl, ?_, ?_, ?_,
    by rw [handleEvent_init]; rfl, ?_⟩
  · cases err with
    | none => simp [orElseStr]
    | some s =>
      by_cases hs : s = ""
      · simp [orElseStr, hs]
      · simp [orElseStr, hs]
  · intro s hs hne
    simp [orElseStr, hs, hne]
  · rintro (h | h) <;> simp [orElseStr, h]
  · intro he
    have h2 := congrArg String.data he
    rw [String.data_append] at h2
    have h3 := List.append_eq_nil.mp h2
    simp at h3

/-- Witness for C5 at a present message, an absent one, and a boundary
error event. -/
theorem error_propagation_witness :
    orElseStr (some "boom") "PDF generation failed" = "boom"
    ∧ orElseStr none "PDF generation failed" = "PDF generation failed"
    ∧ ((PdfLib.handleEvent (PdfLib.generatePdfWithPdfLib 0) 1
          (BoundaryEvent.errorEvent "x")).settled
        = some (RunOutcome.rejected ("Worker error: " ++ "x")))
    ∧ ("Worker error: " ++ "x") ≠ "" :=
  ⟨(error_propagation 0 1 (some "boom") "x").2.2.1 "boom" rfl (by decide),
   (error_propagation 0 1 none "x").2.2.2.1 (Or.inl rfl),
   (error_propagation 0 1 (some "boom") "x").2.2.2.2.1,
   (error_propagation 0 1 (some "boom") "x").2.2.2.2.2⟩

/-! ### C7: pagination of the PDFme worker -/

theorem templateStep_schemas_length (m : Nat) (st : PdfMeWorker.TemplateState) (i : Nat) :
    ((PdfMeWorker.templateStep m st i).schemas).length = st.schemas.length := by
  by_cases h : st.rowsOnCurrentPage ≥ m <;>
    simp [PdfMeWorker.templateStep, h, length_modifyAt]

theorem template_fold_schemas_length (m : Nat) (l : List Nat)
    (st : PdfMeWorker.TemplateState) :
    ((l.foldl (PdfMeWorker.templateStep m) st).schemas).length = st.schemas.length := by
  induction l generalizing st with
  | nil => rfl
  | cons i l ih => rw [List.foldl_cons, ih, templateStep_schemas_length]

theorem createTemplate_schemas_length (n m : Nat) :
    (PdfMeWorker.createTemplate n m).schemas.length
      = 1 + (PdfMeWorker.ceilDiv n m - 1) := by
  rw [PdfMeWorker.createTemplate, template_fold_schemas_length]
  simp only [List.length_cons, List.length_replicate]
  omega

theorem templateStep_headers (m : Nat) (st : PdfMeWorker.TemplateState) (i : Nat)
    (h : ∀ pg ∈ st.schemas, ∀ f ∈ PdfMeWorker.baseSchema, f ∈ pg) :
    ∀ pg ∈ (PdfMeWorker.templateStep m st i).schemas,
      ∀ f ∈ PdfMeWorker.baseSchema, f ∈ pg := by
  intro pg hpg f hf
  by_cases hge : st.rowsOnCurrentPage ≥ m <;>
  · simp only [PdfMeWorker.templateStep, hge, if_true, if_false] at hpg
    rcases mem_modifyAt hpg with h' | ⟨a, ha, rfl⟩
    · exact h pg h' f hf
    · exact List.mem_append_left _ (h a ha f hf)

theorem template_fold_headers (m : Nat) (l : List Nat) (st : PdfMeWorker.TemplateState)
    (h : ∀ pg ∈ st.schemas, ∀ f ∈ PdfMeWorker.baseSchema, f ∈ pg) :
    ∀ pg ∈ (l.foldl (PdfMeWorker.templateStep m) st).schemas,
      ∀ f ∈ PdfMeWorker.baseSchema, f ∈ pg := by
  induction l generalizing st with
  | nil => exact h
  | cons i l ih => exact ih _ (templateStep_headers m st i h)

theorem createTemplate_headers (n m : Nat) :
    ∀ pg ∈ (PdfMeWorker.createTemplate n m).schemas,
      ∀ f ∈ PdfMeWorker.baseSchema, f ∈ pg := by
  apply template_fold_headers
  intro pg hpg f hf
  rcases List.mem_cons.mp hpg with h' | h'
  · exact h' ▸ hf
  · exact (List.eq_of_mem_replicate h') ▸ hf

theorem getElem?_modifyAt_append {α : Type} (l : List (List α)) (i q : Nat)
    (e : List α) (pg : List α) (hq : l[q]? = some pg) :
    ∃ pg', (modifyAt l i (fun a => a ++ e))[q]? = some pg' ∧ pg ⊆ pg' := by
  rw [getElem?_modifyAt]
  by_cases h : i = q
  · rw [if_pos h, hq]
    exact ⟨pg ++ e, rfl, List.subset_append_left _ _⟩
  · rw [if_neg h, hq]
    exact ⟨pg, rfl, fun x hx => hx⟩

theorem inputsStep_inputs (m : Nat) (st : PdfMeWorker.InputsState) (p : Nat × RowData) :
    (PdfMeWorker.inputsStep m st p).inputs
      = modifyAt st.inputs
          (if st.rowsOnCurrentPage ≥ m then st.currentPage + 1 else st.currentPage)
          (fun page => page ++ PdfMeWorker.rowEntries p.1 p.2) := by
  by_cases hge : st.rowsOnCurrentPage ≥ m <;>
    simp [PdfMeWorker.inputsStep, hge]

theorem inputs_fold_sub (m : Nat) (ds : List (Nat × RowData)) (q : Nat) :
    ∀ (st : PdfMeWorker.InputsState) (pg : PdfMeWorker.PageInput),
      st.inputs[q]? = some pg →
      ∃ pg', ((ds.foldl (PdfMeWorker.inputsStep m) st).inputs)[q]? = some pg'
        ∧ pg ⊆ pg' := by
  induction ds with
  | nil => exact fun st pg hq => ⟨pg, hq, fun x hx => hx⟩
  | cons p ds ih =>
    intro st pg hq
    obtain ⟨pg₁, h₁, hsub₁⟩ :=
      getElem?_modifyAt_append st.inputs _ q (PdfMeWorker.rowEntries p.1 p.2) pg hq
    have h₁' : (PdfMeWorker.inputsStep m st p).inputs[q]? = some pg₁ := by
      rw [inputsStep_inputs]; exact h₁
    obtain ⟨pg₂, h₂, hsub₂⟩ := ih (PdfMeWorker.inputsStep m st p) pg₁ h₁'
    exact ⟨pg₂, h₂, fun x hx => hsub₂ (hsub₁ hx)⟩

theorem inputs_fold_places (ds : List RowData) :
    ∀ (k : Nat) (st : PdfMeWorker.InputsState),
      ((k = 0 ∧ st.currentPage = 0 ∧ st.rowsOnCurrentPage = 0)
        ∨ (0 < k ∧ st.currentPage = (k - 1) / 30
            ∧ st.rowsOnCurrentPage = (k - 1) % 30 + 1)) →
      (∀ j, j < k + ds.length → j / 30 < st.inputs.length) →
      ∀ (t : Nat) (row : RowData), ds[t]? = some row →
        ∃ pg, (((ds.enumFrom k).foldl (PdfMeWorker.inputsStep 30) st).inputs)[(k + t) / 30]?
                = some pg
          ∧ ∀ x ∈ PdfMeWorker.rowEntries (k + t) row, x ∈ pg := by
  induction ds with
  | nil =>
    intro k st _ _ t row hrow
    simp at hrow
  | cons d ds ih =>
    intro k st hst hlen t row hrow
    -- the state after placing row k
    have hpage : (PdfMeWorker.inputsStep 30 st (k, d)).currentPage = k / 30 := by
      rcases hst with ⟨hk, hp, hr⟩ | ⟨hk, hp, hr⟩ <;>
        by_cases hge : st.rowsOnCurrentPage ≥ 30 <;>
        simp only [PdfMeWorker.inputsStep, hge, if_true, if_false] <;> omega
    have hrows : (PdfMeWorker.inputsStep 30 st (k, d)).rowsOnCurrentPage = k % 30 + 1 := by
      rcases hst with ⟨hk, hp, hr⟩ | ⟨hk, hp, hr⟩ <;>
        by_cases hge : st.rowsOnCurrentPage ≥ 30 <;>
        simp only [PdfMeWorker.inputsStep, hge, if_true, if_false] <;> omega
    have hidx : (if st.rowsOnCurrentPage ≥ 30 then st.currentPage + 1 else st.currentPage)
        = k / 30 := by
      rcases hst with ⟨hk, hp, hr⟩ | ⟨hk, hp, hr⟩ <;>
        by_cases hge : st.rowsOnCurrentPage ≥ 30 <;>
        simp only [hge, if_true, if_false] <;> omega
    have hlen1 : ∀ j, j < (k + 1) + ds.length →
        j / 30 < (PdfMeWorker.inputsStep 30 st (k, d)).inputs.length := by
      intro j hj
      rw [inputsStep_inputs, length_modifyAt]
      exact hlen j (by simp only [List.length_cons]; omega)
    cases t with
    | zero =>
      have hd : d = row := by
        simpa using hrow
      subst hd
      have hk30 : k / 30 < st.inputs.length :=
        hlen k (by simp only [List.length_cons]; omega)
      obtain ⟨pg0, hpg0⟩ : ∃ pg0, st.inputs[k / 30]? = some pg0 :=
        ⟨st.inputs[k / 30], List.getElem?_eq_getElem hk30⟩
      have h1 : (PdfMeWorker.inputsStep 30 st (k, d)).inputs[k / 30]?
          = some (pg0 ++ PdfMeWorker.rowEntries k d) := by
        rw [inputsStep_inputs, hidx, getElem?_modifyAt, if_pos rfl, hpg0]
        rfl
      obtain ⟨pg', h2, hsub⟩ :=
        inputs_fold_sub 30 (ds.enumFrom (k + 1)) (k / 30)
          (PdfMeWorker.inputsStep 30 st (k, d)) _ h1
      refine ⟨pg', ?_, ?_⟩
      · show (((ds.enumFrom (k + 1)).foldl (PdfMeWorker.inputsStep 30)
            (PdfMeWorker.inputsStep 30 st (k, d))).inputs)[(k + 0) / 30]? = some pg'
        rw [Nat.add_zero]
        exact h2
      · intro x hx
        refine hsub (List.mem_append_right pg0 ?_)
        rw [Nat.add_zero] at hx
        exact hx
    | succ t =>
      have hrow' : ds[t]? = some row := by simpa using hrow
      have hst1 : ((k + 1 = 0 ∧ (PdfMeWorker.inputsStep 30 st (k, d)).currentPage = 0
            ∧ (PdfMeWorker.inputsStep 30 st (k, d)).rowsOnCurrentPage = 0)
          ∨ (0 < k + 1
            ∧ (PdfMeWorker.inputsStep 30 st (k, d)).currentPage = (k + 1 - 1) / 30
            ∧ (PdfMeWorker.inputsStep 30 st (k, d)).rowsOnCurrentPage
                = (k + 1 - 1) % 30 + 1)) := by
        right
        refine ⟨Nat.succ_pos k, ?_, ?_⟩
        · rw [hpage]; omega
        · rw [hrows]; omega
      have hres := ih (k + 1) (PdfMeWorker.inputsStep 30 st (k, d)) hst1 hlen1 t row hrow'
      have hadd : k + 1 + t = k + (t + 1) := by omega
      rw [hadd] at hres
      exact hres

/-! #### pdf-lib side: page capacities, row placement, per-page headers -/

theorem maxRowsOnFirstPage_eq : PdfLibWorker.maxRowsOnFirstPage = 25 := by
  rw [PdfLibWorker.maxRowsOnFirstPage, PdfLibWorker.tableTop, PdfLibWorker.pageHeight,
    PdfLibWorker.margin, PdfLibWorker.headerHeight, PdfLibWorker.rowHeight]
  norm_num
  rfl

theorem rowsPerPage_eq : PdfLibWorker.rowsPerPage = 28 := by
  rw [PdfLibWorker.rowsPerPage, PdfLibWorker.pageHeight, PdfLibWorker.margin,
    PdfLibWorker.headerHeight, PdfLibWorker.rowHeight]
  norm_num
  rfl

theorem pageOf_eq (i : Nat) :
    PdfLibWorker.pageOf i = if i < 25 then 0 else (i - 25) / 28 + 1 := by
  rw [PdfLibWorker.pageOf, maxRowsOnFirstPage_eq, rowsPerPage_eq]

theorem drawStep_pages (p : Nat × RowData) (st : PdfLibWorker.DrawState) :
    (PdfLibWorker.drawStep p st).pages
      = modifyAt (PdfLibWorker.pageAdvance p.1 st).pages
          (PdfLibWorker.pageAdvance p.1 st).pageIndex
          (fun page => page ++ PdfLibWorker.rowItems p.1 p.2
            (PdfLibWorker.pageAdvance p.1 st).currentY) := rfl

theorem drawStep_pageIndex (p : Nat × RowData) (st : PdfLibWorker.DrawState) :
    (PdfLibWorker.drawStep p st).pageIndex
      = (PdfLibWorker.pageAdvance p.1 st).pageIndex := rfl

theorem pageAdvance_pageIndex (k : Nat) (st : PdfLibWorker.DrawState)
    (hlink : (k = 0 ∧ st.pageIndex = 0)
      ∨ (0 < k ∧ st.pageIndex = PdfLibWorker.pageOf (k - 1))) :
    (PdfLibWorker.pageAdvance k st).pageIndex = PdfLibWorker.pageOf k := by
  rcases hlink with ⟨hk, hp⟩ | ⟨hk, hp⟩
  · subst hk
    rw [PdfLibWorker.pageAdvance]
    simp only [maxRowsOnFirstPage_eq, rowsPerPage_eq, pageOf_eq, hp]
    split_ifs
    all_goals try dsimp only
    all_goals omega
  · rw [pageOf_eq] at hp
    rw [PdfLibWorker.pageAdvance]
    simp only [maxRowsOnFirstPage_eq, rowsPerPage_eq, pageOf_eq]
    split_ifs at hp ⊢
    all_goals try dsimp only
    all_goals omega

theorem pageAdvance_length (k : Nat) (st : PdfLibWorker.DrawState)
    (h : st.pages.length = st.pageIndex + 1) :
    (PdfLibWorker.pageAdvance k st).pages.length
      = (PdfLibWorker.pageAdvance k st).pageIndex + 1 := by
  rw [PdfLibWorker.pageAdvance]
  split_ifs
  · dsimp only
    rw [List.length_append, h]
    rfl
  · exact h

theorem drawStep_length (p : Nat × RowData) (st : PdfLibWorker.DrawState)
    (h : st.pages.length = st.pageIndex + 1) :
    (PdfLibWorker.drawStep p st).pages.length
      = (PdfLibWorker.drawStep p st).pageIndex + 1 := by
  rw [drawStep_pages, length_modifyAt, drawStep_pageIndex]
  exact pageAdvance_length p.1 st h

theorem drawRows_sub (rows : List (Nat × RowData)) (q : Nat) :
    ∀ (st : PdfLibWorker.DrawState) (pg : List PdfLibWorker.DrawItem),
      st.pages[q]? = some pg →
      ∃ pg', ((PdfLibWorker.drawRows rows st).pages)[q]? = some pg' ∧ pg ⊆ pg' := by
  induction rows with
  | nil => exact fun st pg hq => ⟨pg, hq, fun x hx => hx⟩
  | cons p rest ih =>
    intro st pg hq
    have hq1 : (PdfLibWorker.pageAdvance p.1 st).pages[q]? = some pg := by
      rw [PdfLibWorker.pageAdvance]
      split_ifs
      · dsimp only
        rw [List.getElem?_append, if_pos (List.getElem?_eq_some.mp hq).1]
        exact hq
      · exact hq
    obtain ⟨pg₁, h₁, hs₁⟩ :=
      getElem?_modifyAt_append (PdfLibWorker.pageAdvance p.1 st).pages
        (PdfLibWorker.pageAdvance p.1 st).pageIndex q
        (PdfLibWorker.rowItems p.1 p.2 (PdfLibWorker.pageAdvance p.1 st).currentY) pg hq1
    have h₁' : (PdfLibWorker.drawStep p st).pages[q]? = some pg₁ := by
      rw [drawStep_pages]
      exact h₁
    obtain ⟨pg₂, h₂, hs₂⟩ := ih (PdfLibWorker.drawStep p st) pg₁ h₁'
    exact ⟨pg₂, h₂, fun x hx => hs₂ (hs₁ hx)⟩

theorem drawRows_headers (rows : List (Nat × RowData)) :
    ∀ (st : PdfLibWorker.DrawState),
      (∀ pg ∈ st.pages, ∃ y, ∀ it ∈ PdfLibWorker.headerItems y, it ∈ pg) →
      ∀ pg ∈ (PdfLibWorker.drawRows rows st).pages,
        ∃ y, ∀ it ∈ PdfLibWorker.headerItems y, it ∈ pg := by
  induction rows with
  | nil => exact fun st h => h
  | cons p rest ih =>
    intro st h
    have hadv : ∀ pg ∈ (PdfLibWorker.pageAdvance p.1 st).pages,
        ∃ y, ∀ it ∈ PdfLibWorker.headerItems y, it ∈ pg := by
      rw [PdfLibWorker.pageAdvance]
      split_ifs
      · dsimp only
        intro pg hpg
        rcases List.mem_append.mp hpg with hmem | hmem
        · exact h pg hmem
        · rw [List.mem_singleton.mp hmem]
          exact ⟨PdfLibWorker.pageHeight - PdfLibWorker.margin, fun it hit => hit⟩
      · exact h
    refine ih (PdfLibWorker.drawStep p st) ?_
    intro pg hpg
    rw [drawStep_pages] at hpg
    rcases mem_modifyAt hpg with hmem | ⟨a, ha, rfl⟩
    · exact hadv pg hmem
    · obtain ⟨y, hy⟩ := hadv a ha
      exact ⟨y, fun it hit => List.mem_append_left _ (hy it hit)⟩

theorem drawRows_places (ds : List RowData) :
    ∀ (k : Nat) (st : PdfLibWorker.DrawState),
      ((k = 0 ∧ st.pageIndex = 0)
        ∨ (0 < k ∧ st.pageIndex = PdfLibWorker.pageOf (k - 1))) →
      st.pages.length = st.pageIndex + 1 →
      ∀ (t : Nat) (row : RowData), ds[t]? = some row →
        ∃ pg y,
          ((PdfLibWorker.drawRows (ds.enumFrom k) st).pages)[PdfLibWorker.pageOf (k + t)]?
              = some pg
          ∧ ∀ it ∈ PdfLibWorker.rowTexts row y, it ∈ pg := by
  induction ds with
  | nil =>
    intro k st _ _ t row hrow
    simp at hrow
  | cons d ds ih =>
    intro k st hlink hlen t row hrow
    have hpi : (PdfLibWorker.pageAdvance k st).pageIndex = PdfLibWorker.pageOf k :=
      pageAdvance_pageIndex k st hlink
    have hlen1 : (PdfLibWorker.pageAdvance k st).pages.length
        = (PdfLibWorker.pageAdvance k st).pageIndex + 1 :=
      pageAdvance_length k st hlen
    have hlen2 : (PdfLibWorker.drawStep (k, d) st).pages.length
        = (PdfLibWorker.drawStep (k, d) st).pageIndex + 1 :=
      drawStep_length (k, d) st hlen
    cases t with
    | zero =>
      have hd : d = row := by simpa using hrow
      subst hd
      obtain ⟨pg0, hpg0⟩ :
          ∃ pg0, (PdfLibWorker.pageAdvance k st).pages[PdfLibWorker.pageOf k]? = some pg0 :=
        ⟨_, List.getElem?_eq_getElem (by rw [hlen1, hpi]; omega)⟩
      have h1 : (PdfLibWorker.drawStep (k, d) st).pages[PdfLibWorker.pageOf k]?
          = some (pg0 ++ PdfLibWorker.rowItems k d (PdfLibWorker.pageAdvance k st).currentY) := by
        rw [drawStep_pages, hpi, getElem?_modifyAt, if_pos rfl, hpg0]
        rfl
      obtain ⟨pg', h2, hsub⟩ :=
        drawRows_sub (ds.enumFrom (k + 1)) (PdfLibWorker.pageOf k)
          (PdfLibWorker.drawStep (k, d) st) _ h1
      refine ⟨pg', (PdfLibWorker.pageAdvance k st).currentY, ?_, ?_⟩
      · show ((PdfLibWorker.drawRows (ds.enumFrom (k + 1))
              (PdfLibWorker.drawStep (k, d) st)).pages)[PdfLibWorker.pageOf (k + 0)]?
            = some pg'
        rw [Nat.add_zero]
        exact h2
      · intro it hit
        exact hsub (List.mem_append_right pg0 (List.mem_append_right _ hit))
    | succ t =>
      have hrow' : ds[t]? = some row := by simpa using hrow
      have hlink1 : ((k + 1 = 0 ∧ (PdfLibWorker.drawStep (k, d) st).pageIndex = 0)
          ∨ (0 < k + 1
            ∧ (PdfLibWorker.drawStep (k, d) st).pageIndex
                = PdfLibWorker.pageOf (k + 1 - 1))) := by
        right
        refine ⟨Nat.succ_pos k, ?_⟩
        rw [Nat.add_sub_cancel, drawStep_pageIndex]
        exact hpi
      have hres := ih (k + 1) (PdfLibWorker.drawStep (k, d) st) hlink1 hlen2 t row hrow'
      have hadd : k + 1 + t = k + (t + 1) := by omega
      rw [hadd] at hres
      exact hres

/-! #### PDFme side: header text inputs beyond page 0 -/

theorem rowEntries_underscore (i : Nat) (row : RowData) :
    ∀ e ∈ PdfMeWorker.rowEntries i row, '_' ∈ e.1.data := by
  intro e he
  simp only [PdfMeWorker.rowEntries, List.mem_cons, List.not_mem_nil, or_false] at he
  rcases he with rfl | rfl | rfl | rfl <;>
    (dsimp only
     rw [String.data_append]
     exact List.mem_append_left _ (by decide))

theorem inputs_fold_underscore (m : Nat) (ds : List (Nat × RowData)) :
    ∀ (st : PdfMeWorker.InputsState),
      (∀ q pg, 1 ≤ q → st.inputs[q]? = some pg → ∀ e ∈ pg, '_' ∈ e.1.data) →
      ∀ q pg, 1 ≤ q →
        ((ds.foldl (PdfMeWorker.inputsStep m) st).inputs)[q]? = some pg →
        ∀ e ∈ pg, '_' ∈ e.1.data := by
  induction ds with
  | nil => exact fun st h => h
  | cons p rest ih =>
    intro st h
    refine ih (PdfMeWorker.inputsStep m st p) ?_
    intro q pg hq hpg e he
    rw [inputsStep_inputs, getElem?_modifyAt] at hpg
    by_cases hiq : (if st.rowsOnCurrentPage ≥ m then st.currentPage + 1
        else st.currentPage) = q
    · rw [if_pos hiq] at hpg
      cases hold : st.inputs[q]? with
      | none => rw [hold] at hpg; exact Option.noConfusion hpg
      | some old =>
        rw [hold] at hpg
        simp only [Option.map_some', Option.some.injEq] at hpg
        rw [← hpg] at he
        rcases List.mem_append.mp he with he' | he'
        · exact h q old hq hold e he'
        · exact rowEntries_underscore p.1 p.2 e he'
    · rw [if_neg hiq] at hpg
      exact h q pg hq hpg e he

theorem createPdfInputs_underscore (n : Nat) :
    ∀ q pg, 1 ≤ q → (PdfMeWorker.createPdfInputs n)[q]? = some pg →
      ∀ e ∈ pg, '_' ∈ e.1.data := by
  have hinit : ∀ q pg, 1 ≤ q →
      (((List.range ((PdfMeWorker.createPdfTemplate n).schemas.length)).map
        (fun pageIndex => if pageIndex = 0 then PdfMeWorker.headerEntries n
          else ([] : PdfMeWorker.PageInput)))[q]? = some pg) →
      ∀ e ∈ pg, '_' ∈ e.1.data := by
    intro q pg hq hpg e he
    rw [List.getElem?_map] at hpg
    by_cases hlt : q < (PdfMeWorker.createPdfTemplate n).schemas.length
    · rw [List.getElem?_range hlt] at hpg
      simp only [Option.map_some', Option.some.injEq] at hpg
      rw [if_neg (by omega)] at hpg
      rw [← hpg] at he
      exact absurd he (List.not_mem_nil e)
    · rw [List.getElem?_eq_none (by rw [List.length_range]; omega)] at hpg
      exact Option.noConfusion hpg
  exact inputs_fold_underscore 30 ((generateDummyData n).enum) _ hinit

theorem inputs_fold_len (m : Nat) (ds : List (Nat × RowData)) :
    ∀ st : PdfMeWorker.InputsState,
      ((ds.foldl (PdfMeWorker.inputsStep m) st).inputs).length = st.inputs.length := by
  induction ds with
  | nil => exact fun st => rfl
  | cons p rest ih =>
    intro st
    rw [List.foldl_cons, ih, inputsStep_inputs, length_modifyAt]

theorem createPdfInputs_length (n : Nat) :
    (PdfMeWorker.createPdfInputs n).length
      = (PdfMeWorker.createPdfTemplate n).schemas.length := by
  simp only [PdfMeWorker.createPdfInputs, PdfMeWorker.generateInputs]
  rw [inputs_fold_len, List.length_map, List.length_range]

theorem no_underscore_header : '_' ∉ ("header" : String).data := by decide

theorem no_underscore_nameHeader : '_' ∉ ("nameHeader" : String).data := by decide

theorem no_underscore_ageHeader : '_' ∉ ("ageHeader" : String).data := by decide

theorem no_underscore_emailHeader : '_' ∉ ("emailHeader" : String).data := by decide

theorem no_underscore_occupationHeader : '_' ∉ ("occupationHeader" : String).data := by
  decide

set_option maxRecDepth 8192 in
/-- C7 counterexample: at `rowCount = 31` the PDFme document has two
pages; page 0's inputs contain the header text `("nameHeader", "Name")`,
but page 1's inputs contain no text for any of the five header fields —
`generateInputs` supplies header text to the first page only, so page 1
does not carry its own header as the claim states. -/
theorem pagination_counterexample :
    (PdfMeWorker.createPdfInputs 31).length = 2
    ∧ (∃ pg0, (PdfMeWorker.createPdfInputs 31)[0]? = some pg0
        ∧ ("nameHeader", "Name") ∈ pg0)
    ∧ (∃ pg1, (PdfMeWorker.createPdfInputs 31)[1]? = some pg1
        ∧ ∀ v, ("header", v) ∉ pg1 ∧ ("nameHeader", v) ∉ pg1
            ∧ ("ageHeader", v) ∉ pg1 ∧ ("emailHeader", v) ∉ pg1
            ∧ ("occupationHeader", v) ∉ pg1) := by
  have hT : (PdfMeWorker.createPdfTemplate 31).schemas.length = 2 := by
    show (PdfMeWorker.createTemplate 31 PdfMeWorker.maxRowsPerPage).schemas.length = 2
    rw [createTemplate_schemas_length]
    decide
  have hlen : (PdfMeWorker.createPdfInputs 31).length = 2 := by
    rw [createPdfInputs_length, hT]
  refine ⟨hlen, ?_, ?_⟩
  · have hinit0 : ((List.range ((PdfMeWorker.createPdfTemplate 31).schemas.length)).map
          (fun pageIndex => if pageIndex = 0 then PdfMeWorker.headerEntries 31
            else ([] : PdfMeWorker.PageInput)))[0]?
        = some (PdfMeWorker.headerEntries 31) := by
      rw [List.getElem?_map, List.getElem?_range (by rw [hT]; omega)]
      simp
    obtain ⟨pg0, h0, hsub⟩ :=
      inputs_fold_sub 30 ((generateDummyData 31).enum) 0
        { inputs := (List.range ((PdfMeWorker.createPdfTemplate 31).schemas.length)).map
            (fun pageIndex => if pageIndex = 0 then PdfMeWorker.headerEntries 31
              else ([] : PdfMeWorker.PageInput))
          currentPage := 0
          rowsOnCurrentPage := 0 }
        (PdfMeWorker.headerEntries 31) hinit0
    refine ⟨pg0, h0, hsub ?_⟩
    simp only [PdfMeWorker.headerEntries]
    exact List.mem_cons_of_mem _ (List.mem_cons_self _ _)
  · have h1lt : 1 < (PdfMeWorker.createPdfInputs 31).length := by rw [hlen]; omega
    refine ⟨_, List.getElem?_eq_getElem h1lt, ?_⟩
    intro v
    have hund := createPdfInputs_underscore 31 1 _ (by omega)
      (List.getElem?_eq_getElem h1lt)
    exact ⟨fun hm => absurd (hund _ hm) no_underscore_header,
           fun hm => absurd (hund _ hm) no_underscore_nameHeader,
           fun hm => absurd (hund _ hm) no_underscore_ageHeader,
           fun hm => absurd (hund _ hm) no_underscore_emailHeader,
           fun hm => absurd (hund _ hm) no_underscore_occupationHeader⟩

/-- C7 (amended): both paginating backends cap the records per page and
start a new page at the cap.  PDFme: `maxRowsPerPage = 30`, the template
has `max 1 ⌈n / 30⌉` pages, record `i`'s input entries land on page
`i / 30`, every page's schema carries its own copy of the five header
fields, but the header text inputs go to the first page only (pages past
the first hold only row entries, whose keys all contain an underscore, so
none of the five header texts).  pdf-lib: 25 rows fit on the first page
and 28 on each subsequent page, record `i` is drawn on page 0 when
`i < 25` and on page `(i - 25) / 28 + 1` otherwise, and every page —
including each page the row loop adds — carries its own fully drawn
header (background rectangle plus the four bold column labels). -/
theorem pagination_amended (n i p : Nat) (hi : i < n)
    (hp : p < (PdfMeWorker.createPdfTemplate n).schemas.length) :
    PdfMeWorker.maxRowsPerPage = 30
    ∧ (PdfMeWorker.createPdfTemplate n).schemas.length
        = max 1 (PdfMeWorker.ceilDiv n 30)
    ∧ (∃ pg, (PdfMeWorker.createPdfTemplate n).schemas[p]? = some pg
        ∧ ∀ f ∈ PdfMeWorker.baseSchema, f ∈ pg)
    ∧ (∃ pgi, (PdfMeWorker.createPdfInputs n)[i / 30]? = some pgi
        ∧ ("name_" ++ toString i, "Person " ++ toString (i + 1)) ∈ pgi
        ∧ ("age_" ++ toString i, toString (20 + i % 40)) ∈ pgi
        ∧ ("email_" ++ toString i, "person" ++ toString (i + 1) ++ "@example.com") ∈ pgi
        ∧ ("occupation_" ++ toString i, OCCUPATIONS.getD (i % 5) "") ∈ pgi)
    ∧ (∀ q pg, 1 ≤ q → (PdfMeWorker.createPdfInputs n)[q]? = some pg →
        ∀ v, ("header", v) ∉ pg ∧ ("nameHeader", v) ∉ pg ∧ ("ageHeader", v) ∉ pg
          ∧ ("emailHeader", v) ∉ pg ∧ ("occupationHeader", v) ∉ pg)
    ∧ PdfLibWorker.maxRowsOnFirstPage = 25
    ∧ PdfLibWorker.rowsPerPage = 28
    ∧ PdfLibWorker.pageOf i = (if i < 25 then 0 else (i - 25) / 28 + 1)
    ∧ (∃ pg y, ((PdfLibWorker.createPdfPages n).pages)[PdfLibWorker.pageOf i]? = some pg
        ∧ ∀ it ∈ PdfLibWorker.rowTexts
            { name := "Person " ++ toString (i + 1)
              age := 20 + i % 40
              email := "person" ++ toString (i + 1) ++ "@example.com"
              occupation := OCCUPATIONS.getD (i % 5) "" } y, it ∈ pg)
    ∧ (∀ (q : Nat) (pg : List PdfLibWorker.DrawItem),
        ((PdfLibWorker.createPdfPages n).pages)[q]? = some pg →
        ∃ y, ∀ it ∈ PdfLibWorker.headerItems y, it ∈ pg) := by
  have hlen : (PdfMeWorker.createPdfTemplate n).schemas.length
      = 1 + (PdfMeWorker.ceilDiv n 30 - 1) :=
    createTemplate_schemas_length n 30
  have hrow : (generateDummyData n)[i]? = some
      { name := "Person " ++ toString (i + 1)
        age := 20 + i % 40
        email := "person" ++ toString (i + 1) ++ "@example.com"
        occupation := OCCUPATIONS.getD (i % 5) "" } := by
    simp [generateDummyData, List.getElem?_map, List.getElem?_range, hi]
  refine ⟨rfl, ?_, ?_, ?_, ?_, maxRowsOnFirstPage_eq, rowsPerPage_eq, pageOf_eq i,
    ?_, ?_⟩
  · rw [hlen]
    omega
  · refine ⟨(PdfMeWorker.createPdfTemplate n).schemas[p],
      List.getElem?_eq_getElem hp, ?_⟩
    exact createTemplate_headers n 30 _ (List.getElem_mem hp)
  · have hlen0 : ∀ j, j < 0 + (generateDummyData n).length →
        j / 30 < ((List.range ((PdfMeWorker.createPdfTemplate n).schemas.length)).map
          (fun pageIndex => if pageIndex = 0 then PdfMeWorker.headerEntries n
            else ([] : PdfMeWorker.PageInput))).length := by
      intro j hj
      rw [List.length_map, List.length_range, hlen]
      have hjn : j < n := by simpa [generateDummyData] using hj
      show j / 30 < 1 + ((n + 30 - 1) / 30 - 1)
      omega
    obtain ⟨pgi, hpgi, hmem⟩ :=
      inputs_fold_places (generateDummyData n) 0
        { inputs := (List.range ((PdfMeWorker.createPdfTemplate n).schemas.length)).map
            (fun pageIndex => if pageIndex = 0 then PdfMeWorker.headerEntries n
              else ([] : PdfMeWorker.PageInput))
          currentPage := 0
          rowsOnCurrentPage := 0 }
        (Or.inl ⟨rfl, rfl, rfl⟩) hlen0 i _ hrow
    refine ⟨pgi, ?_, ?_, ?_, ?_, ?_⟩
    · rw [show (PdfMeWorker.createPdfInputs n)
          = (((generateDummyData n).enumFrom 0).foldl (PdfMeWorker.inputsStep 30)
              { inputs := (List.range ((PdfMeWorker.createPdfTemplate n).schemas.length)).map
                  (fun pageIndex => if pageIndex = 0 then PdfMeWorker.headerEntries n
                    else ([] : PdfMeWorker.PageInput))
                currentPage := 0
                rowsOnCurrentPage := 0 }).inputs from rfl]
      rw [show i / 30 = (0 + i) / 30 by rw [Nat.zero_add]]
      exact hpgi
    · exact hmem _ (by simp [PdfMeWorker.rowEntries])
    · exact hmem _ (by simp [PdfMeWorker.rowEntries])
    · exact hmem _ (by simp [PdfMeWorker.rowEntries])
    · exact hmem _ (by simp [PdfMeWorker.rowEntries])
  · intro q pg hq hpg v
    have hund := createPdfInputs_underscore n q pg hq hpg
    exact ⟨fun hm => absurd (hund _ hm) no_underscore_header,
           fun hm => absurd (hund _ hm) no_underscore_nameHeader,
           fun hm => absurd (hund _ hm) no_underscore_ageHeader,
           fun hm => absurd (hund _ hm) no_underscore_emailHeader,
           fun hm => absurd (hund _ hm) no_underscore_occupationHeader⟩
  · obtain ⟨pg, y, hpg, hmem⟩ :=
      drawRows_places (generateDummyData n) 0
        { pages := [PdfLibWorker.firstPageItems n]
          currentY := PdfLibWorker.tableTop - PdfLibWorker.headerHeight
          pageIndex := 0 }
        (Or.inl ⟨rfl, rfl⟩) rfl i _ hrow
    rw [Nat.zero_add] at hpg
    exact ⟨pg, y, hpg, hmem⟩
  · intro q pg hpg
    have hmem : pg ∈ (PdfLibWorker.createPdfPages n).pages := by
      obtain ⟨hlt, heq⟩ := List.getElem?_eq_some.mp hpg
      exact heq ▸ List.getElem_mem hlt
    refine drawRows_headers ((generateDummyData n).enum)
      { pages := [PdfLibWorker.firstPageItems n]
        currentY := PdfLibWorker.tableTop - PdfLibWorker.headerHeight
        pageIndex := 0 } ?_ pg hmem
    intro pg0 hpg0
    rw [List.mem_singleton.mp hpg0]
    exact ⟨PdfLibWorker.tableTop, fun it hit => List.mem_append_right _ hit⟩

/-- Witness for the amended C7 at `n = 31`, `i = 30`, `p = 1`: with 31
records the 31st row (index 30) lands on PDFme page `30 / 30 = 1` and on
pdf-lib page `(30 - 25) / 28 + 1 = 1`, and both pages carry their header
structure as the amended claim states. -/
theorem pagination_amended_witness :
    PdfMeWorker.maxRowsPerPage = 30
    ∧ (PdfMeWorker.createPdfTemplate 31).schemas.length
        = max 1 (PdfMeWorker.ceilDiv 31 30)
    ∧ (∃ pg, (PdfMeWorker.createPdfTemplate 31).schemas[1]? = some pg
        ∧ ∀ f ∈ PdfMeWorker.baseSchema, f ∈ pg)
    ∧ (∃ pgi, (PdfMeWorker.createPdfInputs 31)[30 / 30]? = some pgi
        ∧ ("name_" ++ toString 30, "Person " ++ toString (30 + 1)) ∈ pgi
        ∧ ("age_" ++ toString 30, toString (20 + 30 % 40)) ∈ pgi
        ∧ ("email_" ++ toString 30, "person" ++ toString (30 + 1) ++ "@example.com") ∈ pgi
        ∧ ("occupation_" ++ toString 30, OCCUPATIONS.getD (30 % 5) "") ∈ pgi)
    ∧ (∀ q pg, 1 ≤ q → (PdfMeWorker.createPdfInputs 31)[q]? = some pg →
        ∀ v, ("header", v) ∉ pg ∧ ("nameHeader", v) ∉ pg ∧ ("ageHeader", v) ∉ pg
          ∧ ("emailHeader", v) ∉ pg ∧ ("occupationHeader", v) ∉ pg)
    ∧ PdfLibWorker.maxRowsOnFirstPage = 25
    ∧ PdfLibWorker.rowsPerPage = 28
    ∧ PdfLibWorker.pageOf 30 = (if 30 < 25 then 0 else (30 - 25) / 28 + 1)
    ∧ (∃ pg y, ((PdfLibWorker.createPdfPages 31).pages)[PdfLibWorker.pageOf 30]? = some pg
        ∧ ∀ it ∈ PdfLibWorker.rowTexts
            { name := "Person " ++ toString (30 + 1)
              age := 20 + 30 % 40
              email := "person" ++ toString (30 + 1) ++ "@example.com"
              occupation := OCCUPATIONS.getD (30 % 5) "" } y, it ∈ pg)
    ∧ (∀ (q : Nat) (pg : List PdfLibWorker.DrawItem),
        ((PdfLibWorker.createPdfPages 31).pages)[q]? = some pg →
        ∃ y, ∀ it ∈ PdfLibWorker.headerItems y, it ∈ pg) :=
  pagination_amended 31 30 1 (by omega)
    (by show 1 < (PdfMeWorker.createTemplate 31 PdfMeWorker.maxRowsPerPage).schemas.length
        rw [createTemplate_schemas_length]
        decide)

end PdfBench
